import Mathlib

/-!
# Adf bidder adapter

Shallow embedding of `adapters/adf/adf.go`.

The adapter is a pure transformation between the host's bid request / bid
response values and one HTTP request / response.  Everything it does with
JSON goes through `encoding/json` and the host packages `openrtb2`,
`openrtb_ext`, `adapters` and `errortypes`, none of which belongs to the
adapter.  Those collaborators are taken as a parameter, `JsonLib`: one
field per (function, Go type) pair that `adf.go` calls.  Every theorem below
is stated for an arbitrary `JsonLib`; `sampleLib` is one concrete
instance that answers a small set of literal documents the way the Go
libraries do and is used to evaluate the code on concrete inputs.

Conventions of the embedding:

* `[]byte` / `json.RawMessage` is `Option (List UInt8)`; `none` is the nil
  slice, which Go distinguishes from an empty one in `bid.Ext != nil`;
* a Go `error` value is a `GoError`; a nil `[]error` is `[]`;
* `json.Unmarshal(data, &v)` on a zero `v` is `Except GoError T` (the
  adapter never reads `v` after a failure);
* `json.Marshal(v)` is the pair `Bytes × Option GoError`, as in Go, because
  `adf.go` stores the first component in places where it ignores or has not
  yet inspected the second;
* the `errors *[]error` sink of `pbadslotEditor` is passed in and returned;
* `map[string]T` is an association list read through `mapLookup`,
  `mapDelete` and `mapSet`;
* fields of the host's records that `adf.go` neither reads nor writes are
  carried as a single `Untouched` value.
-/

namespace Adf

/-! ## Values -/

/-- Go byte slice: `none` is nil, `some bs` is a non-nil slice holding `bs`. -/
abbrev Bytes := Option (List UInt8)

/-- The type `json.RawMessage`, a named `[]byte`. -/
abbrev RawMessage := Bytes

/-- Go `len` on a byte slice. -/
def len : Bytes → Nat
  | none => 0
  | some bs => bs.length

/-- Go conversion `[]byte(s)`: the UTF-8 bytes of `s`, in a non-nil slice. -/
def bytesOf (s : String) : Bytes :=
  some (s.toList.flatMap String.utf8EncodeChar)

/-- Go `error` values seen by the adapter: the two `errortypes` records it builds
itself, and errors built by a library (`encoding/json`, `fmt.Errorf`), identified by
their text. -/
inductive GoError where
  | BadInput (Message : String)
  | BadServerResponse (Message : String)
  | other (text : String)
  deriving DecidableEq, Repr

/-- The method `Error()` of an error value. -/
def GoError.Error : GoError → String
  | .BadInput m => m
  | .BadServerResponse m => m
  | .other t => t

deriving instance DecidableEq for Except

/-- Go `map[string]T`. -/
abbrev GoMap (α : Type) := List (String × α)

/-- Go `v, ok := m[k]`. -/
def mapLookup {α : Type} (k : String) : GoMap α → Option α
  | [] => none
  | (k', v) :: m => if k' = k then some v else mapLookup k m

/-- Go `delete(m, k)`. -/
def mapDelete {α : Type} (k : String) (m : GoMap α) : GoMap α :=
  m.filter (fun kv => decide (kv.1 ≠ k))

/-- Go `m[k] = v`. -/
def mapSet {α : Type} (k : String) (v : α) (m : GoMap α) : GoMap α :=
  (k, v) :: mapDelete k m

/-- Go `slices.Contains`. -/
def slicesContains (s : List String) (v : String) : Bool :=
  s.any (fun x => decide (x = v))

/-- Go `fmt.Sprintf` of an `int` under the verb `%d`. -/
def formatInt : Int → String
  | Int.ofNat n => Nat.repr n
  | Int.negSucc n => "-" ++ Nat.repr (n + 1)

/-! ## Records of the host -/

/-- The record `openrtb2.Imp`. -/
structure Imp where
  ID : String
  TagID : String
  Ext : RawMessage
  Untouched : String
  deriving DecidableEq, Repr

/-- The record `openrtb2.BidRequest`. -/
structure BidRequest where
  ID : String
  Imp : List Imp
  Ext : RawMessage
  Untouched : String
  deriving DecidableEq, Repr

/-- The record `openrtb2.Bid`. -/
structure Bid where
  ID : String
  ImpID : String
  Ext : RawMessage
  Untouched : String
  deriving DecidableEq, Repr

/-- The record `openrtb2.SeatBid`. -/
structure SeatBid where
  Bid : List Bid
  Untouched : String
  deriving DecidableEq, Repr

/-- The record `openrtb2.BidResponse`. -/
structure BidResponse where
  Cur : String
  SeatBid : List SeatBid
  Untouched : String
  deriving DecidableEq, Repr

/-- The string type `openrtb_ext.BidType`. -/
abbrev BidType := String

/-- The record `openrtb_ext.ExtBidPrebid`; `Type_` is its field `Type` (JSON `type`). -/
structure ExtBidPrebid where
  Type_ : BidType
  Untouched : String
  deriving DecidableEq, Repr

/-- The record `openrtb_ext.ExtBid`; `Prebid` is a pointer, `none` when nil. -/
structure ExtBid where
  Prebid : Option ExtBidPrebid
  deriving DecidableEq, Repr

/-- The record `adapters.ExtImpBidder`. -/
structure ExtImpBidder where
  Bidder : RawMessage
  deriving DecidableEq, Repr

/-- The string type `json.Number`. -/
abbrev Number := String

/-- The method `String()` of `json.Number`. -/
def Number.String (n : Number) : String := n

/-- The record `openrtb_ext.ExtImpAdf`. -/
structure ExtImpAdf where
  MasterTagID : Number
  PriceType : String
  deriving DecidableEq, Repr

/-- The record `openrtb_ext.ExtRequest`, which the adapter only carries along. -/
structure ExtRequest where
  Untouched : String
  deriving DecidableEq, Repr

/-- The record `adapters.RequestData`. -/
structure RequestData where
  Method : String
  Uri : String
  Body : Bytes
  deriving DecidableEq, Repr

/-- The record `adapters.ResponseData`. -/
structure ResponseData where
  StatusCode : Int
  Body : Bytes
  deriving DecidableEq, Repr

/-- The record `adapters.TypedBid`; `Bid` points at the bid inside the response. -/
structure TypedBid where
  Bid : Bid
  BidType : BidType
  deriving DecidableEq, Repr

/-- The record `adapters.BidderResponse`. -/
structure BidderResponse where
  Currency : String
  Bids : List TypedBid
  deriving DecidableEq, Repr

/-- The host constructor `adapters.NewBidderResponseWithBidsCapacity`: default currency and
an empty bid list (the capacity only sizes the allocation). -/
def NewBidderResponseWithBidsCapacity (_capacity : Nat) : BidderResponse :=
  { Currency := "USD", Bids := [] }

/-- The record `config.Adapter`, as far as `Builder` reads it. -/
structure ConfigAdapter where
  Endpoint : String
  ExtraAdapterInfo : String
  deriving DecidableEq, Repr

/-! ## Records of the adapter (`adf.go` lines 15-23) -/

/-- The record `adapter`. -/
structure adapter where
  endpoint : String
  extraAdapterInfo : GoMap (List String)
  deriving DecidableEq, Repr

/-- The record `adfRequestExt`: the embedded `openrtb_ext.ExtRequest` and the field `pt`. -/
structure adfRequestExt where
  ExtRequest : ExtRequest
  PriceType : String
  deriving DecidableEq, Repr

/-- The zero value `adfRequestExt{}`. -/
def adfRequestExt.zero : adfRequestExt :=
  { ExtRequest := { Untouched := "" }, PriceType := "" }

/-! ## The libraries the adapter calls -/

/-- The functions of `encoding/json` and `openrtb_ext` that `adf.go` calls, one field per
target type. -/
structure JsonLib where
  unmarshalExtraAdapterInfo : Bytes → Except GoError (GoMap (List String))
  unmarshalObject : Bytes → Except GoError (GoMap RawMessage)
  marshalObject : GoMap RawMessage → Bytes × Option GoError
  unmarshalExtImpBidder : Bytes → Except GoError ExtImpBidder
  unmarshalExtImpAdf : Bytes → Except GoError ExtImpAdf
  unmarshalRequestExt : Bytes → Except GoError adfRequestExt
  marshalRequestExt : adfRequestExt → Bytes × Option GoError
  marshalBidRequest : BidRequest → Bytes × Option GoError
  unmarshalBidResponse : Bytes → Except GoError BidResponse
  unmarshalExtBid : Bytes → Except GoError ExtBid
  ParseBidType : String → Except GoError BidType

/-! ## The adapter (`adf.go`) -/

/-- Source: `Builder`, lines 26-38.  The bidder name and the server configuration are not
read. -/
def Builder (lib : JsonLib) (config : ConfigAdapter) : adapter × Option GoError :=
  let unmarshalledExtraAdapterInfo : GoMap (List String) :=
    match lib.unmarshalExtraAdapterInfo (bytesOf config.ExtraAdapterInfo) with
    | .error _ => []
    | .ok m => m
  ({ endpoint := config.Endpoint, extraAdapterInfo := unmarshalledExtraAdapterInfo }, none)

/-- Source: `getSuppressPbadslot`, lines 168-175. -/
def getSuppressPbadslot (extraAdapterInfo : GoMap (List String)) : Bool :=
  match mapLookup "suppresskeywords" extraAdapterInfo with
  | some value => if slicesContains value "pbadslot" then true else false
  | none => false

/-- Source: `pbadslotEditor`, lines 177-217.  The error sink is threaded through. -/
def pbadslotEditor (lib : JsonLib) (extContent : RawMessage) (suppressPbadslotdetails : Bool)
    (errors : List GoError) : RawMessage × List GoError :=
  if !suppressPbadslotdetails then (extContent, errors)
  else
    match lib.unmarshalObject extContent with
    | .error err => (extContent, errors ++ [GoError.BadInput err.Error])
    | .ok unmarshalledExtContent =>
      match mapLookup "data" unmarshalledExtContent with
      | none => (extContent, errors)
      | some dataVal =>
        match lib.unmarshalObject dataVal with
        | .error err => (extContent, errors ++ [GoError.BadInput err.Error])
        | .ok unmarshalledData =>
          if (mapLookup "pbadslot" unmarshalledData).isSome then
            let unmarshalledData := mapDelete "pbadslot" unmarshalledData
            let marshalledEditedData := (lib.marshalObject unmarshalledData).1
            let unmarshalledExtContent := mapSet "data" marshalledEditedData unmarshalledExtContent
            let marshalledEditedExtContent := (lib.marshalObject unmarshalledExtContent).1
            (marshalledEditedExtContent, errors)
          else (extContent, errors)

/-- The variables that the impression loop of `MakeRequests` updates. -/
structure ImpLoop where
  errors : List GoError
  validImps : List Imp
  priceType : String
  deriving DecidableEq, Repr

/-- Source: `MakeRequests`, lines 47-71: the body of the loop over `request.Imp`; each
`continue` returns the state reached so far. -/
def impLoopBody (lib : JsonLib) (suppressPbadslotDetails : Bool) (st : ImpLoop) (imp : Imp) :
    ImpLoop :=
  let edited := pbadslotEditor lib imp.Ext suppressPbadslotDetails st.errors
  let imp : Imp := { imp with Ext := edited.1 }
  let errors := edited.2
  match lib.unmarshalExtImpBidder imp.Ext with
  | .error err => { st with errors := errors ++ [GoError.BadInput err.Error] }
  | .ok bidderExt =>
    match lib.unmarshalExtImpAdf bidderExt.Bidder with
    | .error err => { st with errors := errors ++ [GoError.BadInput err.Error] }
    | .ok adfImpExt =>
      let imp : Imp := { imp with TagID := adfImpExt.MasterTagID.String }
      { errors := errors
        validImps := st.validImps ++ [imp]
        priceType :=
          if adfImpExt.PriceType ≠ "" ∧ st.priceType = "" then adfImpExt.PriceType
          else st.priceType }

/-- Source: `MakeRequests`, lines 41-72: the declarations and the loop. -/
def impLoop (lib : JsonLib) (a : adapter) (request : BidRequest) : ImpLoop :=
  let suppressPbadslotDetails := getSuppressPbadslot a.extraAdapterInfo
  request.Imp.foldl (impLoopBody lib suppressPbadslotDetails)
    { errors := [], validImps := [], priceType := "" }

/-- Source: `MakeRequests`, lines 74-91: the update of `request.Ext`; returns the new
`request.Ext` and the new error list. -/
def updateRequestExt (lib : JsonLib) (requestExtBytes : RawMessage) (priceType : String)
    (errors : List GoError) : RawMessage × List GoError :=
  if priceType ≠ "" then
    let parsed : adfRequestExt × Option GoError :=
      if len requestExtBytes > 0 then
        match lib.unmarshalRequestExt requestExtBytes with
        | .error err => (adfRequestExt.zero, some err)
        | .ok v => (v, none)
      else (adfRequestExt.zero, none)
    match parsed.2 with
    | some err => (requestExtBytes, errors ++ [err])
    | none =>
      let requestExt : adfRequestExt := { parsed.1 with PriceType := priceType }
      let marshalled := lib.marshalRequestExt requestExt
      match marshalled.2 with
      | some err => (marshalled.1, errors ++ [err])
      | none => (marshalled.1, errors)
  else (requestExtBytes, errors)

/-- Source: `MakeRequests`, lines 41-93: the request as it stands when it is handed to the
serializer, and the errors accumulated up to that point. -/
def mutatedRequest (lib : JsonLib) (a : adapter) (request : BidRequest) :
    BidRequest × List GoError :=
  let st := impLoop lib a request
  let ext := updateRequestExt lib request.Ext st.priceType st.errors
  ({ request with Ext := ext.1, Imp := st.validImps }, ext.2)

/-- Source: `MakeRequests`, lines 40-108.  The request info is not read. -/
def MakeRequests (lib : JsonLib) (a : adapter) (request : BidRequest) :
    List RequestData × List GoError :=
  let mutated := mutatedRequest lib a request
  let marshalled := lib.marshalBidRequest mutated.1
  match marshalled.2 with
  | some err => ([], mutated.2 ++ [err])
  | none => ([{ Method := "POST", Uri := a.endpoint, Body := marshalled.1 }], mutated.2)

/-- Source: `getMediaTypeForBid`, lines 154-166. -/
def getMediaTypeForBid (lib : JsonLib) (bid : Bid) : Except GoError BidType :=
  let fallback : Except GoError BidType :=
    .error (GoError.BadServerResponse
      ("Failed to parse impression \"" ++ bid.ImpID ++ "\" mediatype"))
  if bid.Ext ≠ none then
    match lib.unmarshalExtBid bid.Ext with
    | .ok bidExt =>
      match bidExt.Prebid with
      | some prebid => lib.ParseBidType prebid.Type_
      | none => fallback
    | .error _ => fallback
  else fallback

/-- Source: `MakeBids`, lines 138-148: the body of the loop over `seatBid.Bid`. -/
def bidLoopBody (lib : JsonLib) (st : BidderResponse × List GoError) (bid : Bid) :
    BidderResponse × List GoError :=
  match getMediaTypeForBid lib bid with
  | .error err => (st.1, st.2 ++ [err])
  | .ok bidType =>
    ({ st.1 with Bids := st.1.Bids ++ [{ Bid := bid, BidType := bidType }] }, st.2)

/-- Source: `MakeBids`, lines 137-149: the loop over `response.SeatBid`. -/
def seatBidLoop (lib : JsonLib) (st : BidderResponse × List GoError) (seatBids : List SeatBid) :
    BidderResponse × List GoError :=
  seatBids.foldl (fun st seatBid => seatBid.Bid.foldl (bidLoopBody lib) st) st

/-- Source: `MakeBids`, lines 110-152.  The receiver and the outbound request data are
not read. -/
def MakeBids (lib : JsonLib) (_a : adapter) (request : BidRequest) (_requestData : RequestData)
    (responseData : ResponseData) : Option BidderResponse × List GoError :=
  if responseData.StatusCode = 204 then (none, [])
  else if responseData.StatusCode = 400 then
    (none, [GoError.BadInput "Unexpected status code: 400. Bad request from publisher."])
  else if responseData.StatusCode ≠ 200 then
    (none, [GoError.BadServerResponse
      ("Unexpected status code: " ++ formatInt responseData.StatusCode ++ ".")])
  else
    match lib.unmarshalBidResponse responseData.Body with
    | .error err => (none, [err])
    | .ok response =>
      let bidResponse := NewBidderResponseWithBidsCapacity request.Imp.length
      let bidResponse : BidderResponse := { bidResponse with Currency := response.Cur }
      let out := seatBidLoop lib (bidResponse, []) response.SeatBid
      (some out.1, out.2)

/-! ## What the claims speak about

Definitions that name, in the words of the specification, the quantities that the
properties below relate to the code. -/

/-- The extension of an impression after the redaction step of the loop. -/
def redactedExt (lib : JsonLib) (suppress : Bool) (imp : Imp) : RawMessage :=
  (pbadslotEditor lib imp.Ext suppress []).1

/-- The Adf extension of an impression: its (possibly redacted) extension parsed as a
bidder envelope, and the member `bidder` of that envelope parsed as the Adf extension;
`none` when either parse fails. -/
def parsedImpExt (lib : JsonLib) (suppress : Bool) (imp : Imp) : Option ExtImpAdf :=
  match lib.unmarshalExtImpBidder (redactedExt lib suppress imp) with
  | .error _ => none
  | .ok bidderExt =>
    match lib.unmarshalExtImpAdf bidderExt.Bidder with
    | .error _ => none
    | .ok adfImpExt => some adfImpExt

/-- The impression as it is forwarded: the input impression with its extension redacted
and its tag identifier set to the stringified master tag identifier; `none` when the
impression does not parse. -/
def forwardedImp (lib : JsonLib) (suppress : Bool) (imp : Imp) : Option Imp :=
  (parsedImpExt lib suppress imp).map fun adfImpExt =>
    { imp with Ext := redactedExt lib suppress imp, TagID := adfImpExt.MasterTagID.String }

/-- The errors that one pass of the loop body records for an impression. -/
def impErrors (lib : JsonLib) (suppress : Bool) (imp : Imp) : List GoError :=
  (impLoopBody lib suppress { errors := [], validImps := [], priceType := "" } imp).errors

/-- The price type of the first impression, in original order, that parses and names a
non-empty price type; empty when there is none. -/
def firstPriceType (lib : JsonLib) (suppress : Bool) : List Imp → String
  | [] => ""
  | imp :: rest =>
    match parsedImpExt lib suppress imp with
    | some adfImpExt =>
      if adfImpExt.PriceType ≠ "" then adfImpExt.PriceType
      else firstPriceType lib suppress rest
    | none => firstPriceType lib suppress rest

/-- The round trip of `encoding/json` on `map[string]json.RawMessage`, as far as the
redaction relies on it.  `keys`: a serialized map, parsed again, has the same keys.
`nested`: a member whose value is itself the output of a successful serialization comes
back byte for byte.  `reencodes`: a map that was parsed, with or without a key deleted,
serializes without error. -/
structure ObjectRoundTrip (lib : JsonLib) : Prop where
  keys : ∀ (m m' : GoMap RawMessage), lib.unmarshalObject (lib.marshalObject m).1 = .ok m' →
    ∀ k, (mapLookup k m').isSome = (mapLookup k m).isSome
  nested : ∀ (m m' : GoMap RawMessage) (k : String) (x : GoMap RawMessage),
    lib.unmarshalObject (lib.marshalObject m).1 = .ok m' →
    (lib.marshalObject x).2 = none →
    mapLookup k m = some (lib.marshalObject x).1 →
    mapLookup k m' = some (lib.marshalObject x).1
  reencodes : ∀ (data : Bytes) (d : GoMap RawMessage) (k : String),
    lib.unmarshalObject data = .ok d → (lib.marshalObject (mapDelete k d)).2 = none

/-- Whether an error value is an `errortypes.BadInput`. -/
def GoError.isBadInput : GoError → Bool
  | .BadInput _ => true
  | _ => false

/-- Whether an error value is an `errortypes.BadServerResponse`. -/
def GoError.isBadServerResponse : GoError → Bool
  | .BadServerResponse _ => true
  | _ => false

/-- All bids of a response, in seat-bid order and then bid order. -/
def allBids (response : BidResponse) : List Bid :=
  response.SeatBid.flatMap (fun seatBid => seatBid.Bid)

/-- The typed bid of a bid whose media type resolves. -/
def typedBidOf (lib : JsonLib) (bid : Bid) : Option TypedBid :=
  match getMediaTypeForBid lib bid with
  | .ok bidType => some { Bid := bid, BidType := bidType }
  | .error _ => none

/-- The error of a bid whose media type does not resolve. -/
def bidErrorOf (lib : JsonLib) (bid : Bid) : Option GoError :=
  match getMediaTypeForBid lib bid with
  | .ok _ => none
  | .error err => some err

/-! ## A sample of the libraries

`sampleLib` answers the documents listed below as `encoding/json` and
`openrtb_ext.ParseBidType` answer them; any other document gets `notListed`, and so does
the serialization of a map that is not in `marshalDomain`.  It is used only to run the
adapter on concrete inputs. -/

/-- The answer of `sampleLib` outside its listed documents. -/
def notListed : GoError := .other "document not listed in sampleLib"

/-- The error text of `encoding/json` on the document `{1:2}`. -/
def syntaxErrorText : String :=
  "invalid character '1' looking for beginning of object key string"

/-- Document `{1:2}`. -/
def docMalformed : Bytes := bytesOf "\x7b1:2\x7d"

/-- Document `{"bidder":{"mid":"828782","priceType":"gross"}}`. -/
def docImpGross : Bytes :=
  bytesOf "\x7b\"bidder\":\x7b\"mid\":\"828782\",\"priceType\":\"gross\"\x7d\x7d"

/-- Document `{"mid":"828782","priceType":"gross"}`. -/
def docBidderGross : Bytes := bytesOf "\x7b\"mid\":\"828782\",\"priceType\":\"gross\"\x7d"

/-- Document `{"bidder":{"mid":828783,"priceType":"net"}}`. -/
def docImpNet : Bytes :=
  bytesOf "\x7b\"bidder\":\x7b\"mid\":828783,\"priceType\":\"net\"\x7d\x7d"

/-- Document `{"mid":828783,"priceType":"net"}`. -/
def docBidderNet : Bytes := bytesOf "\x7b\"mid\":828783,\"priceType\":\"net\"\x7d"

/-- Document `{"bidder":{"mid":12345}}`. -/
def docImpPlain : Bytes := bytesOf "\x7b\"bidder\":\x7b\"mid\":12345\x7d\x7d"

/-- Document `{"mid":12345}`. -/
def docBidderPlain : Bytes := bytesOf "\x7b\"mid\":12345\x7d"

/-- Document `{"bidder":"x"}`, whose member `bidder` is not an object. -/
def docImpBadBidder : Bytes := bytesOf "\x7b\"bidder\":\"x\"\x7d"

/-- Document `"x"`. -/
def docBidderBad : Bytes := bytesOf "\"x\""

/-- Document `{"prebid":{"type":"banner"}}`. -/
def docBidBanner : Bytes := bytesOf "\x7b\"prebid\":\x7b\"type\":\"banner\"\x7d\x7d"

/-- Document `{"prebid":{"type":"foo"}}`. -/
def docBidFoo : Bytes := bytesOf "\x7b\"prebid\":\x7b\"type\":\"foo\"\x7d\x7d"

/-- Document `{}`. -/
def docEmptyObject : Bytes := bytesOf "\x7b\x7d"

/-- Document
`{"cur":"EUR","seatbid":[{"bid":[{"id":"b1","impid":"imp-1","ext":{"prebid":{"type":"banner"}}},{"id":"b2","impid":"imp-2","ext":{"prebid":{"type":"foo"}}},{"id":"b3","impid":"imp-3"}]}]}`.
-/
def docResponse : Bytes :=
  bytesOf ("\x7b\"cur\":\"EUR\",\"seatbid\":[\x7b\"bid\":["
    ++ "\x7b\"id\":\"b1\",\"impid\":\"imp-1\",\"ext\":\x7b\"prebid\":\x7b\"type\":\"banner\"\x7d\x7d\x7d,"
    ++ "\x7b\"id\":\"b2\",\"impid\":\"imp-2\",\"ext\":\x7b\"prebid\":\x7b\"type\":\"foo\"\x7d\x7d\x7d,"
    ++ "\x7b\"id\":\"b3\",\"impid\":\"imp-3\"\x7d]\x7d]\x7d")

/-- The value that `docResponse` decodes to. -/
def sampleResponse : BidResponse :=
  { Cur := "EUR"
    SeatBid := [{ Bid := [{ ID := "b1", ImpID := "imp-1", Ext := docBidBanner, Untouched := "" },
                          { ID := "b2", ImpID := "imp-2", Ext := docBidFoo, Untouched := "" },
                          { ID := "b3", ImpID := "imp-3", Ext := none, Untouched := "" }]
                  Untouched := "" }]
    Untouched := "" }

/-- Document `{"suppresskeywords": ["pbadslot", "otherkeyword"]}` (`adf_test.go`, line 28). -/
def docSuppress : Bytes :=
  bytesOf "\x7b\"suppresskeywords\": [\"pbadslot\", \"otherkeyword\"]\x7d"

/-- Document `{"suppressPbadslotdetails": "true"}` (`adf_test.go`, line 17). -/
def docNotAMapping : Bytes := bytesOf "\x7b\"suppressPbadslotdetails\": \"true\"\x7d"

/-- Document `{"prebid":{},"pt":"gross"}`. -/
def docRequestExtGross : Bytes := bytesOf "\x7b\"prebid\":\x7b\x7d,\"pt\":\"gross\"\x7d"

/-- Document `{"name":"test","adslot":"adslot123"}`. -/
def docAdserver : Bytes := bytesOf "\x7b\"name\":\"test\",\"adslot\":\"adslot123\"\x7d"

/-- Document `{"adserver":{"name":"test","adslot":"adslot123"},"pbadslot":"pbadslot123"}`. -/
def docDataPbadslot : Bytes :=
  bytesOf ("\x7b\"adserver\":\x7b\"name\":\"test\",\"adslot\":\"adslot123\"\x7d,"
    ++ "\"pbadslot\":\"pbadslot123\"\x7d")

/-- Document `{"adserver":{"name":"test","adslot":"adslot123"}}`. -/
def docDataRedacted : Bytes :=
  bytesOf "\x7b\"adserver\":\x7b\"name\":\"test\",\"adslot\":\"adslot123\"\x7d\x7d"

/-- Document
`{"bidder":{},"data":{"adserver":{"name":"test","adslot":"adslot123"},"pbadslot":"pbadslot123"}}`
(`adf_test.go`, line 37). -/
def docImpPbadslot : Bytes :=
  bytesOf ("\x7b\"bidder\":\x7b\x7d,\"data\":\x7b\"adserver\":"
    ++ "\x7b\"name\":\"test\",\"adslot\":\"adslot123\"\x7d,\"pbadslot\":\"pbadslot123\"\x7d\x7d")

/-- Document `{"bidder":{},"data":{"adserver":{"name":"test","adslot":"adslot123"}}}`
(`adf_test.go`, line 40). -/
def docImpRedacted : Bytes :=
  bytesOf ("\x7b\"bidder\":\x7b\x7d,\"data\":\x7b\"adserver\":"
    ++ "\x7b\"name\":\"test\",\"adslot\":\"adslot123\"\x7d\x7d\x7d")

/-- Document `{"data":{"adserver":{"name":"test","adslot":"adslot123"},"pbadslot":"pbadslot123"}}`
(`adf_test.go`, line 94). -/
def docExtPbadslot : Bytes :=
  bytesOf ("\x7b\"data\":\x7b\"adserver\":\x7b\"name\":\"test\",\"adslot\":\"adslot123\"\x7d,"
    ++ "\"pbadslot\":\"pbadslot123\"\x7d\x7d")

/-- Document `{"data":{"adserver":{"name":"test","adslot":"adslot123"}}}`
(`adf_test.go`, line 95). -/
def docExtRedacted : Bytes :=
  bytesOf "\x7b\"data\":\x7b\"adserver\":\x7b\"name\":\"test\",\"adslot\":\"adslot123\"\x7d\x7d\x7d"

/-- Document `{"adserver":{"name":"test","adslot":"adslot123"},"notpbadslot":"notpbadslot"}`. -/
def docDataNotPbadslot : Bytes :=
  bytesOf ("\x7b\"adserver\":\x7b\"name\":\"test\",\"adslot\":\"adslot123\"\x7d,"
    ++ "\"notpbadslot\":\"notpbadslot\"\x7d")

/-- Document
`{"data":{"adserver":{"name":"test","adslot":"adslot123"},"notpbadslot":"notpbadslot"}}`
(`adf_test.go`, line 109). -/
def docExtNotPbadslot : Bytes :=
  bytesOf ("\x7b\"data\":\x7b\"adserver\":\x7b\"name\":\"test\",\"adslot\":\"adslot123\"\x7d,"
    ++ "\"notpbadslot\":\"notpbadslot\"\x7d\x7d")

/-- Document `{"data":{"adserver":{"name":"test","adslot":"adslot123"},1:2}}`
(`adf_test.go`, line 80): not valid JSON, so already the top-level parse rejects it. -/
def docBrokenData : Bytes :=
  bytesOf "\x7b\"data\":\x7b\"adserver\":\x7b\"name\":\"test\",\"adslot\":\"adslot123\"\x7d,1:2\x7d\x7d"

/-- Document `{"data":"x"}`: valid JSON whose member `data` is not an object. -/
def docDataIsString : Bytes := bytesOf "\x7b\"data\":\"x\"\x7d"

/-- The error text of `encoding/json` when it serializes a `json.RawMessage` that holds
the document `{1:2}`. -/
def rawMessageErrorText : String :=
  "json: error calling MarshalJSON for type json.RawMessage: " ++ syntaxErrorText

/-- The documents that `sampleLib` decodes into a `map[string]json.RawMessage`, each with
the map it decodes to. -/
def objectTable : List (Bytes × GoMap RawMessage) :=
  [(docEmptyObject, []),
   (docImpGross, [("bidder", docBidderGross)]),
   (docImpNet, [("bidder", docBidderNet)]),
   (docImpPlain, [("bidder", docBidderPlain)]),
   (docImpBadBidder, [("bidder", docBidderBad)]),
   (docImpPbadslot, [("bidder", docEmptyObject), ("data", docDataPbadslot)]),
   (docImpRedacted, [("data", docDataRedacted), ("bidder", docEmptyObject)]),
   (docDataPbadslot, [("adserver", docAdserver), ("pbadslot", bytesOf "\"pbadslot123\"")]),
   (docDataRedacted, [("adserver", docAdserver)]),
   (docExtPbadslot, [("data", docDataPbadslot)]),
   (docExtRedacted, [("data", docDataRedacted)]),
   (docDataNotPbadslot,
     [("adserver", docAdserver), ("notpbadslot", bytesOf "\"notpbadslot\"")]),
   (docExtNotPbadslot, [("data", docDataNotPbadslot)]),
   (docDataIsString, [("data", docBidderBad)])]

/-- The entry of a document in a table of decoded documents. -/
def lookupDoc (data : Bytes) : List (Bytes × GoMap RawMessage) → Option (GoMap RawMessage)
  | [] => none
  | (doc, m) :: table => if doc = data then some m else lookupDoc data table

/-- The maps obtained from a map by removing members. -/
def subMaps : GoMap RawMessage → List (GoMap RawMessage)
  | [] => [[]]
  | kv :: m => (subMaps m).map (fun s => kv :: s) ++ subMaps m

/-- The maps that `sampleLib` serializes: the decoded documents of `objectTable` and what is
left of them when members are removed. -/
def marshalDomain : List (GoMap RawMessage) :=
  objectTable.flatMap fun entry => subMaps entry.2

/-- Whether two maps hold the same members. -/
def sameMembers (m1 m2 : GoMap RawMessage) : Bool :=
  m1.all (fun kv => decide (mapLookup kv.1 m1 = mapLookup kv.1 m2))
    && m2.all (fun kv => decide (mapLookup kv.1 m1 = mapLookup kv.1 m2))

/-- Concatenation of byte slices. -/
def catBytes : List Bytes → Bytes
  | [] => some []
  | b :: bs => some (b.getD [] ++ (catBytes bs).getD [])

/-- The members of a list separated by commas. -/
def commaSep : List Bytes → Bytes
  | [] => some []
  | [b] => b
  | b :: bs => catBytes [b, bytesOf ",", commaSep bs]

/-- Byte-wise order on keys, the order in which `encoding/json` writes map members. -/
def keyLe : List Char → List Char → Bool
  | [], _ => true
  | _ :: _, [] => false
  | c :: cs, d :: ds => if c.toNat < d.toNat then true else if d.toNat < c.toNat then false else keyLe cs ds

/-- Insertion of a member into a key-sorted member list. -/
def insertMember (kv : String × RawMessage) : GoMap RawMessage → GoMap RawMessage
  | [] => [kv]
  | x :: xs => if keyLe kv.1.toList x.1.toList then kv :: x :: xs else x :: insertMember kv xs

/-- Members sorted by key. -/
def sortMembers (m : GoMap RawMessage) : GoMap RawMessage :=
  m.foldr insertMember []

/-- The object that `encoding/json` writes for a map: members in key order, values as they
are. -/
def renderObject (m : GoMap RawMessage) : Bytes :=
  catBytes [bytesOf "\x7b",
    commaSep ((sortMembers m).map fun kv => catBytes [bytesOf ("\"" ++ kv.1 ++ "\":"), kv.2]),
    bytesOf "\x7d"]

/-- The sample of `encoding/json` and `openrtb_ext`. -/
def sampleLib : JsonLib where
  unmarshalExtraAdapterInfo := fun data =>
    if data = docSuppress then .ok [("suppresskeywords", ["pbadslot", "otherkeyword"])]
    else if data = docNotAMapping then
      .error (.other "json: cannot unmarshal string into Go value of type []string")
    else if data = docEmptyObject then .ok []
    else .error notListed
  unmarshalObject := fun data =>
    if data = docMalformed ∨ data = docBrokenData then .error (.other syntaxErrorText)
    else if data = docBidderBad then
      .error (.other
        "json: cannot unmarshal string into Go value of type map[string]json.RawMessage")
    else
      match lookupDoc data objectTable with
      | some m => .ok m
      | none => .error notListed
  marshalObject := fun m =>
    if m ∈ marshalDomain then (renderObject m, none) else (none, some notListed)
  unmarshalExtImpBidder := fun data =>
    if data = docMalformed then .error (.other syntaxErrorText)
    else if data = docEmptyObject then .ok { Bidder := none }
    else if data = docImpGross then .ok { Bidder := docBidderGross }
    else if data = docImpNet then .ok { Bidder := docBidderNet }
    else if data = docImpPlain then .ok { Bidder := docBidderPlain }
    else if data = docImpBadBidder then .ok { Bidder := docBidderBad }
    else if data = docImpPbadslot then .ok { Bidder := docEmptyObject }
    else if data = docImpRedacted then .ok { Bidder := docEmptyObject }
    else .error notListed
  unmarshalExtImpAdf := fun data =>
    if data = none then .error (.other "unexpected end of JSON input")
    else if data = docEmptyObject then .ok { MasterTagID := "", PriceType := "" }
    else if data = docBidderGross then .ok { MasterTagID := "828782", PriceType := "gross" }
    else if data = docBidderNet then .ok { MasterTagID := "828783", PriceType := "net" }
    else if data = docBidderPlain then .ok { MasterTagID := "12345", PriceType := "" }
    else if data = docBidderBad then
      .error (.other "json: cannot unmarshal string into Go value of type openrtb_ext.ExtImpAdf")
    else .error notListed
  unmarshalRequestExt := fun data =>
    if data = docMalformed then .error (.other syntaxErrorText)
    else if data = docEmptyObject then .ok adfRequestExt.zero
    else if data = docRequestExtGross then
      .ok { ExtRequest := { Untouched := "" }, PriceType := "gross" }
    else if data = docBidderBad then
      .error (.other "json: cannot unmarshal string into Go value of type adf.adfRequestExt")
    else .error notListed
  marshalRequestExt := fun v =>
    if v.ExtRequest = { Untouched := "" } then
      (catBytes [bytesOf "\x7b\"prebid\":\x7b\x7d,\"pt\":\"", bytesOf v.PriceType,
        bytesOf "\"\x7d"], none)
    else (none, some notListed)
  marshalBidRequest := fun r =>
    if r.Ext = docMalformed ∨ r.Imp.any (fun imp => decide (imp.Ext = docMalformed)) then
      (none, some (.other rawMessageErrorText))
    else if r.Untouched = "" ∧ r.Imp.all (fun imp => decide (imp.Untouched = "")) then
      (catBytes [bytesOf "\x7b\"id\":\"", bytesOf r.ID, bytesOf "\",\"imp\":[",
        commaSep (r.Imp.map fun imp =>
          catBytes [bytesOf "\x7b\"id\":\"", bytesOf imp.ID, bytesOf "\"",
            (if imp.TagID = "" then some []
             else catBytes [bytesOf ",\"tagid\":\"", bytesOf imp.TagID, bytesOf "\""]),
            (if len imp.Ext = 0 then some [] else catBytes [bytesOf ",\"ext\":", imp.Ext]),
            bytesOf "\x7d"]),
        bytesOf "]",
        (if len r.Ext = 0 then some [] else catBytes [bytesOf ",\"ext\":", r.Ext]),
        bytesOf "\x7d"], none)
    else (none, some notListed)
  unmarshalBidResponse := fun data =>
    if data = docMalformed then .error (.other syntaxErrorText)
    else if data = docResponse then .ok sampleResponse
    else .error notListed
  unmarshalExtBid := fun data =>
    if data = docMalformed then .error (.other syntaxErrorText)
    else if data = docEmptyObject then .ok { Prebid := none }
    else if data = docBidBanner then .ok { Prebid := some { Type_ := "banner", Untouched := "" } }
    else if data = docBidFoo then .ok { Prebid := some { Type_ := "foo", Untouched := "" } }
    else .error notListed
  ParseBidType := fun bidType =>
    if bidType = "banner" then .ok "banner"
    else if bidType = "video" then .ok "video"
    else if bidType = "audio" then .ok "audio"
    else if bidType = "native" then .ok "native"
    else .error (.other ("invalid BidType: " ++ bidType))

/-- An adapter without extra information: suppression is off. -/
def sampleAdapter : adapter :=
  { endpoint := "https://adx.adform.net/adx/openrtb", extraAdapterInfo := [] }

/-- The configuration of `TestMakeRequestsWithPbadslotReplacement` (`adf_test.go`, line 28):
no endpoint, suppression of `pbadslot` switched on. -/
def suppressConfig : ConfigAdapter :=
  { Endpoint := ""
    ExtraAdapterInfo := "\x7b\"suppresskeywords\": [\"pbadslot\", \"otherkeyword\"]\x7d" }

/-- The request of `TestMakeRequestsWithPbadslotReplacement` (`adf_test.go`, lines 34-39). -/
def requestPbadslot : BidRequest :=
  { ID := ""
    Imp := [{ ID := "1_1", TagID := "", Ext := docImpPbadslot, Untouched := "" }]
    Ext := none
    Untouched := "" }

/-- A request with two impressions that name different price types, the first `gross`. -/
def requestTwoPriceTypes : BidRequest :=
  { ID := "r1"
    Imp := [{ ID := "1_0", TagID := "", Ext := docImpGross, Untouched := "" },
            { ID := "1_1", TagID := "", Ext := docImpNet, Untouched := "" }]
    Ext := none
    Untouched := "" }

/-- A request whose impressions all fail parsing: a malformed extension, and an envelope
whose member `bidder` is a string. -/
def requestAllBad : BidRequest :=
  { ID := "r2"
    Imp := [{ ID := "2_0", TagID := "", Ext := docMalformed, Untouched := "" },
            { ID := "2_1", TagID := "", Ext := docImpBadBidder, Untouched := "" }]
    Ext := none
    Untouched := "" }

/-- A request with one parsing impression between two failing ones. -/
def requestMixed : BidRequest :=
  { ID := "r3"
    Imp := [{ ID := "3_0", TagID := "", Ext := docMalformed, Untouched := "" },
            { ID := "3_1", TagID := "", Ext := docImpPlain, Untouched := "" },
            { ID := "3_2", TagID := "", Ext := docImpBadBidder, Untouched := "" }]
    Ext := none
    Untouched := "" }

/-- The first mapping of `TestGetSuppressPbadslot` (`adf_test.go`, line 158): no key
`suppresskeywords`. -/
def infoWithoutKey : GoMap (List String) :=
  [("key1", ["value1", "value2"]), ("key2", ["newvalue"])]

/-- The second mapping of `TestGetSuppressPbadslot` (`adf_test.go`, line 166): the key is
there, the value `pbadslot` is not. -/
def infoWithoutValue : GoMap (List String) :=
  [("suppresskeywords", ["value1", "value2"]), ("key2", ["newvalue"])]

/-- The third mapping of `TestGetSuppressPbadslot` (`adf_test.go`, line 174). -/
def infoWithValue : GoMap (List String) :=
  [("suppresskeywords", ["value1", "pbadslot"]), ("key2", ["newvalue"])]

/-- The configuration of `TestJsonSamples` (`adf_test.go`, lines 15-18): the extra
information is valid JSON but not a mapping from strings to string sequences. -/
def jsonSamplesConfig : ConfigAdapter :=
  { Endpoint := "https://adx.adform.net/adx/openrtb"
    ExtraAdapterInfo := "\x7b\"suppressPbadslotdetails\": \"true\"\x7d" }

/-- A request whose impression names the price type `gross` and whose top-level extension
is the document `{1:2}`, which is not JSON. -/
def requestMalformedExt : BidRequest :=
  { ID := "r4"
    Imp := [{ ID := "4_0", TagID := "", Ext := docImpGross, Untouched := "" }]
    Ext := docMalformed
    Untouched := "" }

/-- A request whose impression names the price type `gross` and whose top-level extension
is the document `"x"`: valid JSON, but a string where an object is expected. -/
def requestStringExt : BidRequest :=
  { ID := "r5"
    Imp := [{ ID := "5_0", TagID := "", Ext := docImpGross, Untouched := "" }]
    Ext := docBidderBad
    Untouched := "" }

/-- A request with a single impression, whose extension is the document `{1:2}`. -/
def requestOneMalformed : BidRequest :=
  { ID := "r6"
    Imp := [{ ID := "6_0", TagID := "", Ext := docMalformed, Untouched := "" }]
    Ext := none
    Untouched := "" }

/-- A request whose only impression parses and names no price type, with the top-level
extension `{}`. -/
def requestNoPriceType : BidRequest :=
  { ID := "r7"
    Imp := [{ ID := "7_0", TagID := "", Ext := docImpPlain, Untouched := "" }]
    Ext := docEmptyObject
    Untouched := "" }

/-- The outbound request data used where `MakeBids` is evaluated. -/
def sampleRequestData : RequestData :=
  { Method := "POST", Uri := "https://adx.adform.net/adx/openrtb", Body := docEmptyObject }

set_option maxRecDepth 100000

/-! ## Lemmas on the response loop -/

theorem bidLoopBody_eq (lib : JsonLib) (st : BidderResponse × List GoError) (bid : Bid) :
    bidLoopBody lib st bid =
      ({ st.1 with Bids := st.1.Bids ++ (typedBidOf lib bid).toList },
        st.2 ++ (bidErrorOf lib bid).toList) := by
  unfold bidLoopBody typedBidOf bidErrorOf
  cases h : getMediaTypeForBid lib bid <;> simp

theorem bidLoop_eq (lib : JsonLib) (bids : List Bid) (st : BidderResponse × List GoError) :
    bids.foldl (bidLoopBody lib) st =
      ({ st.1 with Bids := st.1.Bids ++ bids.filterMap (typedBidOf lib) },
        st.2 ++ bids.filterMap (bidErrorOf lib)) := by
  induction bids generalizing st with
  | nil => simp
  | cons bid rest ih =>
    rw [List.foldl_cons, ih, bidLoopBody_eq]
    cases h1 : typedBidOf lib bid <;> cases h2 : bidErrorOf lib bid <;>
      simp [List.filterMap_cons, h1, h2]

theorem seatBidLoop_eq (lib : JsonLib) (seatBids : List SeatBid)
    (st : BidderResponse × List GoError) :
    seatBidLoop lib st seatBids =
      ({ st.1 with
          Bids := st.1.Bids ++ (seatBids.flatMap fun sb => sb.Bid).filterMap (typedBidOf lib) },
        st.2 ++ (seatBids.flatMap fun sb => sb.Bid).filterMap (bidErrorOf lib)) := by
  unfold seatBidLoop
  induction seatBids generalizing st with
  | nil => simp
  | cons sb rest ih =>
    rw [List.foldl_cons, ih, bidLoop_eq]
    simp [List.flatMap_cons, List.filterMap_append, List.append_assoc]

theorem typed_or_error_length (lib : JsonLib) (bids : List Bid) :
    (bids.filterMap (typedBidOf lib)).length + (bids.filterMap (bidErrorOf lib)).length
      = bids.length := by
  induction bids with
  | nil => simp
  | cons bid rest ih =>
    have h : (typedBidOf lib bid).toList.length + (bidErrorOf lib bid).toList.length = 1 := by
      unfold typedBidOf bidErrorOf
      cases getMediaTypeForBid lib bid <;> simp
    cases h1 : typedBidOf lib bid <;> cases h2 : bidErrorOf lib bid <;>
      simp [List.filterMap_cons, h1, h2] at h ⊢ <;> omega

/-! ## Lemmas on the impression loop -/

theorem pbadslotEditor_sink (lib : JsonLib) (ext : RawMessage) (suppress : Bool)
    (errors : List GoError) :
    pbadslotEditor lib ext suppress errors =
      ((pbadslotEditor lib ext suppress []).1, errors ++ (pbadslotEditor lib ext suppress []).2) := by
  unfold pbadslotEditor
  cases suppress
  · simp
  · simp only [Bool.not_true, Bool.false_eq_true, if_false]
    cases h1 : lib.unmarshalObject ext with
    | error e => simp
    | ok m =>
      cases h2 : mapLookup "data" m with
      | none => simp [h2]
      | some dataVal =>
        cases h3 : lib.unmarshalObject dataVal with
        | error e => simp [h2, h3]
        | ok d => by_cases h4 : (mapLookup "pbadslot" d).isSome <;> simp [h2, h3, h4]

theorem pbadslotEditor_errors_badInput (lib : JsonLib) (ext : RawMessage) (suppress : Bool) :
    ∀ e ∈ (pbadslotEditor lib ext suppress []).2, e.isBadInput = true := by
  unfold pbadslotEditor
  cases suppress
  · simp
  · simp only [Bool.not_true, Bool.false_eq_true, if_false]
    cases h1 : lib.unmarshalObject ext with
    | error e => simp [GoError.isBadInput]
    | ok m =>
      cases h2 : mapLookup "data" m with
      | none => simp [h2]
      | some dataVal =>
        cases h3 : lib.unmarshalObject dataVal with
        | error e => simp [h2, h3, GoError.isBadInput]
        | ok d => by_cases h4 : (mapLookup "pbadslot" d).isSome <;> simp [h2, h3, h4]

theorem impLoopBody_eq (lib : JsonLib) (suppress : Bool) (st : ImpLoop) (imp : Imp) :
    impLoopBody lib suppress st imp =
      { errors := st.errors ++ impErrors lib suppress imp
        validImps := st.validImps ++ (forwardedImp lib suppress imp).toList
        priceType :=
          if st.priceType = "" then firstPriceType lib suppress [imp] else st.priceType } := by
  unfold impErrors forwardedImp firstPriceType parsedImpExt redactedExt impLoopBody
  rw [pbadslotEditor_sink lib imp.Ext suppress st.errors]
  simp only []
  cases h1 : lib.unmarshalExtImpBidder (pbadslotEditor lib imp.Ext suppress []).1 with
  | error e => by_cases h4 : st.priceType = "" <;> simp [firstPriceType, h4]
  | ok bidderExt =>
    cases h2 : lib.unmarshalExtImpAdf bidderExt.Bidder with
    | error e => by_cases h4 : st.priceType = "" <;> simp [firstPriceType, h2, h4]
    | ok adfImpExt =>
      by_cases h3 : adfImpExt.PriceType = "" <;> by_cases h4 : st.priceType = "" <;>
        simp [firstPriceType, h2, h3, h4]

theorem firstPriceType_append (lib : JsonLib) (suppress : Bool) (xs ys : List Imp) :
    firstPriceType lib suppress (xs ++ ys) =
      if firstPriceType lib suppress xs = "" then firstPriceType lib suppress ys
      else firstPriceType lib suppress xs := by
  induction xs with
  | nil => simp [firstPriceType]
  | cons x rest ih =>
    simp only [List.cons_append, firstPriceType]
    cases h : parsedImpExt lib suppress x with
    | none => simpa using ih
    | some v =>
      by_cases hv : v.PriceType = ""
      · simpa [hv] using ih
      · simp [hv]

theorem impLoop_fold (lib : JsonLib) (suppress : Bool) (imps : List Imp) (st : ImpLoop) :
    imps.foldl (impLoopBody lib suppress) st =
      { errors := st.errors ++ imps.flatMap (impErrors lib suppress)
        validImps := st.validImps ++ imps.filterMap (forwardedImp lib suppress)
        priceType :=
          if st.priceType = "" then firstPriceType lib suppress imps else st.priceType } := by
  induction imps generalizing st with
  | nil =>
    cases st with
    | mk errors validImps priceType => by_cases h : priceType = "" <;> simp [firstPriceType, h]
  | cons imp rest ih =>
    rw [List.foldl_cons, ih, impLoopBody_eq]
    have hfp := firstPriceType_append lib suppress [imp] rest
    simp only [List.singleton_append] at hfp
    cases hf : forwardedImp lib suppress imp <;>
      by_cases h4 : st.priceType = "" <;>
      by_cases h5 : firstPriceType lib suppress [imp] = "" <;>
      simp [List.flatMap_cons, List.filterMap_cons, hf, h4, h5, hfp, List.append_assoc]

theorem impLoop_eq (lib : JsonLib) (a : adapter) (request : BidRequest) :
    impLoop lib a request =
      { errors := request.Imp.flatMap (impErrors lib (getSuppressPbadslot a.extraAdapterInfo))
        validImps :=
          request.Imp.filterMap (forwardedImp lib (getSuppressPbadslot a.extraAdapterInfo))
        priceType := firstPriceType lib (getSuppressPbadslot a.extraAdapterInfo) request.Imp } := by
  unfold impLoop
  rw [impLoop_fold]
  simp

theorem impErrors_of_dropped (lib : JsonLib) (suppress : Bool) (imp : Imp)
    (h : parsedImpExt lib suppress imp = none) :
    ∃ e ∈ impErrors lib suppress imp, e.isBadInput = true := by
  unfold parsedImpExt redactedExt at h
  unfold impErrors impLoopBody
  rw [pbadslotEditor_sink lib imp.Ext suppress []]
  simp only []
  cases h1 : lib.unmarshalExtImpBidder (pbadslotEditor lib imp.Ext suppress []).1 with
  | error e => exact ⟨GoError.BadInput e.Error, by simp, rfl⟩
  | ok bidderExt =>
    cases h2 : lib.unmarshalExtImpAdf bidderExt.Bidder with
    | error e => exact ⟨GoError.BadInput e.Error, by simp [h2], rfl⟩
    | ok adfImpExt => simp [h1, h2] at h

theorem impErrors_badInput (lib : JsonLib) (suppress : Bool) (imp : Imp) :
    ∀ e ∈ impErrors lib suppress imp, e.isBadInput = true := by
  have hp := pbadslotEditor_errors_badInput lib imp.Ext suppress
  unfold impErrors impLoopBody
  rw [pbadslotEditor_sink lib imp.Ext suppress []]
  simp only []
  cases h1 : lib.unmarshalExtImpBidder (pbadslotEditor lib imp.Ext suppress []).1 with
  | error e =>
    intro x hx
    simp at hx
    rcases hx with hx | hx
    · exact hp x hx
    · subst hx; rfl
  | ok bidderExt =>
    cases h2 : lib.unmarshalExtImpAdf bidderExt.Bidder with
    | error e =>
      intro x hx
      simp [h2] at hx
      rcases hx with hx | hx
      · exact hp x hx
      · subst hx; rfl
    | ok adfImpExt =>
      intro x hx
      simp [h2] at hx
      exact hp x hx

theorem forwardedImp_eq_none_iff (lib : JsonLib) (suppress : Bool) (imp : Imp) :
    forwardedImp lib suppress imp = none ↔ parsedImpExt lib suppress imp = none := by
  unfold forwardedImp
  cases parsedImpExt lib suppress imp <;> simp

theorem dropped_le_badInput (lib : JsonLib) (suppress : Bool) (imps : List Imp) :
    imps.length ≤ (imps.filterMap (forwardedImp lib suppress)).length
      + (imps.flatMap (impErrors lib suppress)).countP GoError.isBadInput := by
  induction imps with
  | nil => simp
  | cons imp rest ih =>
    cases hf : forwardedImp lib suppress imp with
    | some out =>
      simp only [List.filterMap_cons, hf, List.flatMap_cons, List.countP_append, List.length_cons]
      omega
    | none =>
      obtain ⟨e, he, hb⟩ :=
        impErrors_of_dropped lib suppress imp ((forwardedImp_eq_none_iff lib suppress imp).1 hf)
      have hpos : 0 < (impErrors lib suppress imp).countP GoError.isBadInput :=
        List.countP_pos_iff.2 ⟨e, he, hb⟩
      simp only [List.filterMap_cons, hf, List.flatMap_cons, List.countP_append, List.length_cons]
      omega

theorem firstPriceType_of_none (lib : JsonLib) (suppress : Bool) (imps : List Imp)
    (h : ∀ imp ∈ imps, parsedImpExt lib suppress imp = none) :
    firstPriceType lib suppress imps = "" := by
  induction imps with
  | nil => rfl
  | cons imp rest ih =>
    have h1 := h imp (List.mem_cons_self _ _)
    simp only [firstPriceType, h1]
    exact ih (fun j hj => h j (List.mem_cons_of_mem _ hj))

theorem firstPriceType_first (lib : JsonLib) (suppress : Bool) (imps : List Imp)
    (h : ∃ imp ∈ imps, ∃ x, parsedImpExt lib suppress imp = some x ∧ x.PriceType ≠ "") :
    ∃ pre imp post x, imps = pre ++ imp :: post
      ∧ parsedImpExt lib suppress imp = some x ∧ x.PriceType ≠ ""
      ∧ (∀ j ∈ pre, ∀ y, parsedImpExt lib suppress j = some y → y.PriceType = "")
      ∧ firstPriceType lib suppress imps = x.PriceType := by
  induction imps with
  | nil => simp at h
  | cons i rest ih =>
    cases hp : parsedImpExt lib suppress i with
    | some v =>
      by_cases hv : v.PriceType = ""
      · have h' : ∃ imp ∈ rest, ∃ x, parsedImpExt lib suppress imp = some x ∧ x.PriceType ≠ "" := by
          obtain ⟨imp, hmem, x, hx, hne⟩ := h
          rcases List.mem_cons.1 hmem with heq | hmem'
          · subst heq
            rw [hp] at hx
            cases hx
            exact absurd hv hne
          · exact ⟨imp, hmem', x, hx, hne⟩
        obtain ⟨pre, imp, post, x, hsplit, hx, hne, hpre, hfirst⟩ := ih h'
        refine ⟨i :: pre, imp, post, x, by simp [hsplit], hx, hne, ?_, ?_⟩
        · intro j hj y hy
          rcases List.mem_cons.1 hj with heq | hj'
          · subst heq
            rw [hp] at hy
            cases hy
            exact hv
          · exact hpre j hj' y hy
        · simp only [firstPriceType, hp, hv]
          simpa using hfirst
      · exact ⟨[], i, rest, v, rfl, hp, hv, by simp, by simp [firstPriceType, hp, hv]⟩
    | none =>
      have h' : ∃ imp ∈ rest, ∃ x, parsedImpExt lib suppress imp = some x ∧ x.PriceType ≠ "" := by
        obtain ⟨imp, hmem, x, hx, hne⟩ := h
        rcases List.mem_cons.1 hmem with heq | hmem'
        · subst heq
          rw [hp] at hx
          cases hx
        · exact ⟨imp, hmem', x, hx, hne⟩
      obtain ⟨pre, imp, post, x, hsplit, hx, hne, hpre, hfirst⟩ := ih h'
      refine ⟨i :: pre, imp, post, x, by simp [hsplit], hx, hne, ?_, ?_⟩
      · intro j hj y hy
        rcases List.mem_cons.1 hj with heq | hj'
        · subst heq
          rw [hp] at hy
          cases hy
        · exact hpre j hj' y hy
      · simp only [firstPriceType, hp]
        exact hfirst

theorem updateRequestExt_errors (lib : JsonLib) (ext : RawMessage) (priceType : String)
    (errors : List GoError) :
    ∃ extra, (updateRequestExt lib ext priceType errors).2 = errors ++ extra := by
  unfold updateRequestExt
  by_cases hpt : priceType = ""
  · exact ⟨[], by simp [hpt]⟩
  · simp only [ne_eq, hpt, not_false_eq_true, if_true]
    by_cases hlen : len ext > 0
    · cases hu : lib.unmarshalRequestExt ext with
      | error e => exact ⟨[e], by simp [hlen, hu]⟩
      | ok v =>
        cases hm : (lib.marshalRequestExt { v with PriceType := priceType }).2 with
        | none => exact ⟨[], by simp [hlen, hu, hm]⟩
        | some e => exact ⟨[e], by simp [hlen, hu, hm]⟩
    · cases hm : (lib.marshalRequestExt { adfRequestExt.zero with PriceType := priceType }).2 with
      | none => exact ⟨[], by simp [hlen, hm]⟩
      | some e => exact ⟨[e], by simp [hlen, hm]⟩

theorem updateRequestExt_empty (lib : JsonLib) (ext : RawMessage) (errors : List GoError) :
    updateRequestExt lib ext "" errors = (ext, errors) := by
  simp [updateRequestExt]

theorem mutatedRequest_eq (lib : JsonLib) (a : adapter) (request : BidRequest) :
    mutatedRequest lib a request =
      ({ request with
          Ext := (updateRequestExt lib request.Ext
            (firstPriceType lib (getSuppressPbadslot a.extraAdapterInfo) request.Imp)
            (request.Imp.flatMap (impErrors lib (getSuppressPbadslot a.extraAdapterInfo)))).1
          Imp := request.Imp.filterMap (forwardedImp lib (getSuppressPbadslot a.extraAdapterInfo)) },
        (updateRequestExt lib request.Ext
          (firstPriceType lib (getSuppressPbadslot a.extraAdapterInfo) request.Imp)
          (request.Imp.flatMap (impErrors lib (getSuppressPbadslot a.extraAdapterInfo)))).2) := by
  unfold mutatedRequest
  rw [impLoop_eq]

theorem MakeRequests_errors (lib : JsonLib) (a : adapter) (request : BidRequest) :
    ∃ extra, (MakeRequests lib a request).2 = (mutatedRequest lib a request).2 ++ extra := by
  unfold MakeRequests
  cases h : (lib.marshalBidRequest (mutatedRequest lib a request).1).2 with
  | none => exact ⟨[], by simp [h]⟩
  | some e => exact ⟨[e], by simp [h]⟩

/-! ## Properties of `MakeBids` -/

/-- C5: on status 200 with a decodable body, `MakeBids` returns a response that carries the
decoded currency and, in seat-bid order then bid order, exactly the bids whose media type
resolves, each with its resolved type; the errors are exactly those of the bids that do not
resolve, one each, so that typed bids and errors together number the bids of the response. -/
theorem MakeBids_ok_partition (lib : JsonLib) (a : adapter) (request : BidRequest)
    (requestData : RequestData) (responseData : ResponseData) (response : BidResponse)
    (hstatus : responseData.StatusCode = 200)
    (hbody : lib.unmarshalBidResponse responseData.Body = .ok response) :
    MakeBids lib a request requestData responseData =
        (some { Currency := response.Cur
                Bids := (allBids response).filterMap (typedBidOf lib) },
         (allBids response).filterMap (bidErrorOf lib))
      ∧ (∀ tb ∈ (allBids response).filterMap (typedBidOf lib),
          tb.Bid ∈ allBids response ∧ getMediaTypeForBid lib tb.Bid = .ok tb.BidType)
      ∧ (∀ bid ∈ allBids response, ∀ bidType, getMediaTypeForBid lib bid = .ok bidType →
          { Bid := bid, BidType := bidType } ∈ (allBids response).filterMap (typedBidOf lib))
      ∧ ((allBids response).filterMap (typedBidOf lib)).length
          + ((allBids response).filterMap (bidErrorOf lib)).length
          = (allBids response).length := by
  refine ⟨?_, ?_, ?_, typed_or_error_length lib _⟩
  · unfold MakeBids
    simp [hstatus, hbody, seatBidLoop_eq, NewBidderResponseWithBidsCapacity, allBids]
  · intro tb htb
    rw [List.mem_filterMap] at htb
    obtain ⟨bid, hmem, hbid⟩ := htb
    unfold typedBidOf at hbid
    cases h : getMediaTypeForBid lib bid with
    | error e => simp [h] at hbid
    | ok t =>
      simp [h] at hbid
      subst hbid
      exact ⟨hmem, h⟩
  · intro bid hmem bidType h
    rw [List.mem_filterMap]
    exact ⟨bid, hmem, by simp [typedBidOf, h]⟩

/-- Witness of C5: the sample response has three bids, of which the first resolves to
`banner`; the other two are dropped with one error each. -/
theorem MakeBids_ok_partition_witness :
    MakeBids sampleLib sampleAdapter requestMixed sampleRequestData
        { StatusCode := 200, Body := docResponse } =
      (some { Currency := "EUR"
              Bids := [{ Bid := { ID := "b1", ImpID := "imp-1", Ext := docBidBanner,
                                  Untouched := "" },
                         BidType := "banner" }] },
       [GoError.other "invalid BidType: foo",
        GoError.BadServerResponse "Failed to parse impression \"imp-3\" mediatype"]) :=
  (MakeBids_ok_partition sampleLib sampleAdapter requestMixed sampleRequestData
    { StatusCode := 200, Body := docResponse } sampleResponse (by decide) (by decide)).1.trans
    (by decide)

/-- C7: on status 204 `MakeBids` returns no response and no errors, whatever the request,
the outbound request and the body. -/
theorem MakeBids_no_content (lib : JsonLib) (a : adapter) (request : BidRequest)
    (requestData : RequestData) (body : Bytes) :
    MakeBids lib a request requestData { StatusCode := 204, Body := body } = (none, []) := by
  simp [MakeBids]

/-- C8: on status 400 `MakeBids` returns no response and exactly one error, a `BadInput`
with the message `Unexpected status code: 400. Bad request from publisher.`. -/
theorem MakeBids_bad_request (lib : JsonLib) (a : adapter) (request : BidRequest)
    (requestData : RequestData) (body : Bytes) :
    MakeBids lib a request requestData { StatusCode := 400, Body := body } =
      (none, [GoError.BadInput "Unexpected status code: 400. Bad request from publisher."]) := by
  simp [MakeBids]

/-- C9: on every status code other than 200, 204 and 400 `MakeBids` returns no response and
exactly one error, a `BadServerResponse` whose message is `Unexpected status code: `, the
decimal rendering of the code, and a full stop. -/
theorem MakeBids_unexpected_status (lib : JsonLib) (a : adapter) (request : BidRequest)
    (requestData : RequestData) (c : Int) (body : Bytes)
    (h200 : c ≠ 200) (h204 : c ≠ 204) (h400 : c ≠ 400) :
    MakeBids lib a request requestData { StatusCode := c, Body := body } =
      (none, [GoError.BadServerResponse ("Unexpected status code: " ++ formatInt c ++ ".")]) := by
  simp [MakeBids, h200, h204, h400]

/-- Witness of C9: status 500 gives the message `Unexpected status code: 500.`. -/
theorem MakeBids_unexpected_status_witness :
    MakeBids sampleLib sampleAdapter requestMixed sampleRequestData
        { StatusCode := 500, Body := docResponse } =
      (none, [GoError.BadServerResponse "Unexpected status code: 500."]) :=
  (MakeBids_unexpected_status sampleLib sampleAdapter requestMixed sampleRequestData 500
    docResponse (by decide) (by decide) (by decide)).trans (by decide)

/-- C10: on status 200 with a body that fails to deserialize, `MakeBids` returns no response
and an error list that holds exactly the deserialization error. -/
theorem MakeBids_undecodable_body (lib : JsonLib) (a : adapter) (request : BidRequest)
    (requestData : RequestData) (responseData : ResponseData) (err : GoError)
    (hstatus : responseData.StatusCode = 200)
    (hbody : lib.unmarshalBidResponse responseData.Body = .error err) :
    MakeBids lib a request requestData responseData = (none, [err]) := by
  simp [MakeBids, hstatus, hbody]

/-- Witness of C10: the body `{1:2}` under status 200. -/
theorem MakeBids_undecodable_body_witness :
    MakeBids sampleLib sampleAdapter requestMixed sampleRequestData
        { StatusCode := 200, Body := docMalformed } =
      (none, [GoError.other syntaxErrorText]) :=
  MakeBids_undecodable_body sampleLib sampleAdapter requestMixed sampleRequestData
    { StatusCode := 200, Body := docMalformed } (GoError.other syntaxErrorText)
    (by decide) (by decide)

/-! ## Properties of `getMediaTypeForBid` -/

theorem getMediaTypeForBid_ignores_impID (lib : JsonLib) (bid1 bid2 : Bid) (bidExt : ExtBid)
    (prebid : ExtBidPrebid) (hsame : bid1.Ext = bid2.Ext) (hext : bid1.Ext ≠ none)
    (hdec : lib.unmarshalExtBid bid1.Ext = .ok bidExt) (hprebid : bidExt.Prebid = some prebid) :
    getMediaTypeForBid lib bid1 = getMediaTypeForBid lib bid2 := by
  have hext2 : bid2.Ext ≠ none := hsame ▸ hext
  have hdec2 : lib.unmarshalExtBid bid2.Ext = .ok bidExt := hsame ▸ hdec
  simp [getMediaTypeForBid, hext, hdec, hext2, hdec2, hprebid]

/-- C6, as amended: when the bid carries an extension that decodes and has a `prebid`
member, `getMediaTypeForBid` returns exactly what `ParseBidType` returns on the type string
(the media type when it is a known enumerant, the error of `ParseBidType` otherwise); when
the extension is absent, does not decode, or has no `prebid` member, it fails with the
`BadServerResponse` whose message is `Failed to parse impression "<impId>" mediatype`. -/
theorem getMediaTypeForBid_cases (lib : JsonLib) (bid : Bid) :
    (∀ bidExt prebid, bid.Ext ≠ none → lib.unmarshalExtBid bid.Ext = .ok bidExt →
        bidExt.Prebid = some prebid →
        getMediaTypeForBid lib bid = lib.ParseBidType prebid.Type_)
    ∧ ((bid.Ext = none ∨ (∃ err, lib.unmarshalExtBid bid.Ext = .error err)
          ∨ (∃ bidExt, lib.unmarshalExtBid bid.Ext = .ok bidExt ∧ bidExt.Prebid = none)) →
        getMediaTypeForBid lib bid =
          .error (GoError.BadServerResponse
            ("Failed to parse impression \"" ++ bid.ImpID ++ "\" mediatype"))) := by
  constructor
  · intro bidExt prebid hext hdec hprebid
    simp [getMediaTypeForBid, hext, hdec, hprebid]
  · intro h
    rcases h with h | ⟨err, h⟩ | ⟨bidExt, h, hp⟩
    · simp [getMediaTypeForBid, h]
    · by_cases hext : bid.Ext = none <;> simp [getMediaTypeForBid, hext, h]
    · by_cases hext : bid.Ext = none <;> simp [getMediaTypeForBid, hext, h, hp]

/-- Witness of C6, as amended: a bid typed `banner` resolves to `banner`, and a bid without
an extension fails with the `BadServerResponse` that names its impression. -/
theorem getMediaTypeForBid_cases_witness :
    getMediaTypeForBid sampleLib
        { ID := "b1", ImpID := "imp-1", Ext := docBidBanner, Untouched := "" } = .ok "banner"
    ∧ getMediaTypeForBid sampleLib { ID := "b3", ImpID := "imp-3", Ext := none, Untouched := "" } =
        .error (GoError.BadServerResponse "Failed to parse impression \"imp-3\" mediatype") :=
  ⟨((getMediaTypeForBid_cases sampleLib
        { ID := "b1", ImpID := "imp-1", Ext := docBidBanner, Untouched := "" }).1
      { Prebid := some { Type_ := "banner", Untouched := "" } }
      { Type_ := "banner", Untouched := "" } (by decide) (by decide) rfl).trans (by decide),
   ((getMediaTypeForBid_cases sampleLib
        { ID := "b3", ImpID := "imp-3", Ext := none, Untouched := "" }).2
      (Or.inl rfl)).trans (by decide)⟩

/-- Counterexample to C6 as stated: the bid of impression `imp-2` carries the extension
`{"prebid":{"type":"foo"}}`, whose type is present but not a known enumerant.  The result
is the error of `ParseBidType`, `invalid BidType: foo`, which is neither a
`BadServerResponse` nor the message `Failed to parse impression "imp-2" mediatype`. -/
theorem getMediaTypeForBid_unknown_type_counterexample :
    sampleLib.unmarshalExtBid docBidFoo = .ok { Prebid := some { Type_ := "foo", Untouched := "" } }
    ∧ getMediaTypeForBid sampleLib
        { ID := "b2", ImpID := "imp-2", Ext := docBidFoo, Untouched := "" } =
        .error (GoError.other "invalid BidType: foo")
    ∧ getMediaTypeForBid sampleLib
        { ID := "b2", ImpID := "imp-2", Ext := docBidFoo, Untouched := "" } ≠
        .error (GoError.BadServerResponse "Failed to parse impression \"imp-2\" mediatype") := by
  decide

/-! ## Properties of `MakeRequests` -/

/-- C1: whenever the final serialization succeeds, `MakeRequests` returns exactly one
outbound request, with method `POST`, the adapter's endpoint as URI and the serialized
mutated request as body, together with the accumulated errors.  When every impression fails
parsing, the mutated request is the input request with an empty impression list, and the
errors returned alongside are the errors collected for the impressions, at least one per
impression. -/
theorem MakeRequests_single_post (lib : JsonLib) (a : adapter) (request : BidRequest)
    (hser : (lib.marshalBidRequest (mutatedRequest lib a request).1).2 = none) :
    MakeRequests lib a request =
        ([{ Method := "POST", Uri := a.endpoint,
            Body := (lib.marshalBidRequest (mutatedRequest lib a request).1).1 }],
         (mutatedRequest lib a request).2)
    ∧ (MakeRequests lib a request).1.length = 1
    ∧ ((∀ imp ∈ request.Imp,
          parsedImpExt lib (getSuppressPbadslot a.extraAdapterInfo) imp = none) →
        (mutatedRequest lib a request).1 = { request with Imp := [] }
        ∧ (MakeRequests lib a request).2 =
            request.Imp.flatMap (impErrors lib (getSuppressPbadslot a.extraAdapterInfo))
        ∧ request.Imp.length ≤ (MakeRequests lib a request).2.length) := by
  have hmk : MakeRequests lib a request =
      ([{ Method := "POST", Uri := a.endpoint,
          Body := (lib.marshalBidRequest (mutatedRequest lib a request).1).1 }],
       (mutatedRequest lib a request).2) := by
    unfold MakeRequests
    simp [hser]
  refine ⟨hmk, by rw [hmk]; rfl, ?_⟩
  intro hall
  have hpt := firstPriceType_of_none lib (getSuppressPbadslot a.extraAdapterInfo) request.Imp hall
  have himps : request.Imp.filterMap (forwardedImp lib (getSuppressPbadslot a.extraAdapterInfo))
      = [] := by
    rw [List.filterMap_eq_nil_iff]
    intro imp hmem
    exact (forwardedImp_eq_none_iff lib _ imp).2 (hall imp hmem)
  have hmut := mutatedRequest_eq lib a request
  rw [hpt, updateRequestExt_empty, himps] at hmut
  have hcount := dropped_le_badInput lib (getSuppressPbadslot a.extraAdapterInfo) request.Imp
  rw [himps] at hcount
  have hle := List.countP_le_length GoError.isBadInput
    (l := request.Imp.flatMap (impErrors lib (getSuppressPbadslot a.extraAdapterInfo)))
  refine ⟨by rw [hmut], by rw [hmk, hmut], ?_⟩
  rw [hmk, hmut]
  simp only [List.length_nil, Nat.zero_add] at hcount
  exact Nat.le_trans hcount hle

/-- Witness of C1: both impressions of `requestAllBad` fail parsing; the single outbound
request is a `POST` to the endpoint whose body is `{"id":"r2","imp":[]}`, and the two
errors come with it. -/
theorem MakeRequests_single_post_witness :
    MakeRequests sampleLib sampleAdapter requestAllBad =
      ([{ Method := "POST", Uri := "https://adx.adform.net/adx/openrtb",
          Body := bytesOf "\x7b\"id\":\"r2\",\"imp\":[]\x7d" }],
       [GoError.BadInput syntaxErrorText,
        GoError.BadInput
          "json: cannot unmarshal string into Go value of type openrtb_ext.ExtImpAdf"]) :=
  (MakeRequests_single_post sampleLib sampleAdapter requestAllBad (by decide)).1.trans
    (by decide)

/-- C2: the impressions that `MakeRequests` forwards are, in original order, exactly the
input impressions whose (possibly redacted) extension parses as a bidder envelope and whose
`bidder` member parses as the Adf extension; each is forwarded with its tag identifier set
to the stringified master tag identifier of its own bidder extension.  They are as many as
the parsing impressions of the input, so a request with one such impression yields exactly
one, and they are what the body of the outbound request serializes. -/
theorem MakeRequests_forwarded_imps (lib : JsonLib) (a : adapter) (request : BidRequest) :
    (mutatedRequest lib a request).1.Imp =
        request.Imp.filterMap (forwardedImp lib (getSuppressPbadslot a.extraAdapterInfo))
    ∧ (mutatedRequest lib a request).1.Imp.map (fun imp => (imp.ID, imp.Untouched)) =
        (request.Imp.filter fun imp =>
          (parsedImpExt lib (getSuppressPbadslot a.extraAdapterInfo) imp).isSome).map
          (fun imp => (imp.ID, imp.Untouched))
    ∧ (request.Imp.filter fun imp =>
          (parsedImpExt lib (getSuppressPbadslot a.extraAdapterInfo) imp).isSome).Sublist
        request.Imp
    ∧ (∀ out ∈ (mutatedRequest lib a request).1.Imp, ∃ imp ∈ request.Imp, ∃ adfImpExt,
          parsedImpExt lib (getSuppressPbadslot a.extraAdapterInfo) imp = some adfImpExt
          ∧ out = { imp with
                      Ext := redactedExt lib (getSuppressPbadslot a.extraAdapterInfo) imp
                      TagID := adfImpExt.MasterTagID.String })
    ∧ (mutatedRequest lib a request).1.Imp.length =
        (request.Imp.filter fun imp =>
          (parsedImpExt lib (getSuppressPbadslot a.extraAdapterInfo) imp).isSome).length
    ∧ (∀ rd ∈ (MakeRequests lib a request).1,
          rd.Body = (lib.marshalBidRequest (mutatedRequest lib a request).1).1) := by
  have himp : (mutatedRequest lib a request).1.Imp =
      request.Imp.filterMap (forwardedImp lib (getSuppressPbadslot a.extraAdapterInfo)) := by
    rw [mutatedRequest_eq]
  have hmap : ∀ imps : List Imp,
      (imps.filterMap (forwardedImp lib (getSuppressPbadslot a.extraAdapterInfo))).map
          (fun imp => (imp.ID, imp.Untouched)) =
        (imps.filter fun imp =>
          (parsedImpExt lib (getSuppressPbadslot a.extraAdapterInfo) imp).isSome).map
          (fun imp => (imp.ID, imp.Untouched)) := by
    intro imps
    induction imps with
    | nil => rfl
    | cons i rest ih =>
      cases hp : parsedImpExt lib (getSuppressPbadslot a.extraAdapterInfo) i <;>
        simp [List.filterMap_cons, List.filter_cons, forwardedImp, hp, ih]
  refine ⟨himp, ?_, List.filter_sublist _, ?_, ?_, ?_⟩
  · rw [himp]
    exact hmap request.Imp
  · intro out hout
    rw [himp, List.mem_filterMap] at hout
    obtain ⟨imp, hmem, hfw⟩ := hout
    unfold forwardedImp at hfw
    cases hp : parsedImpExt lib (getSuppressPbadslot a.extraAdapterInfo) imp with
    | none => simp [hp] at hfw
    | some v =>
      simp [hp] at hfw
      exact ⟨imp, hmem, v, hp, hfw.symm⟩
  · have := congrArg List.length (hmap request.Imp)
    simpa [himp] using this
  · intro rd hrd
    unfold MakeRequests at hrd
    cases hm : (lib.marshalBidRequest (mutatedRequest lib a request).1).2 with
    | none =>
      simp [hm] at hrd
      rw [hrd]
    | some e => simp [hm] at hrd

/-- Witness of C2: of the three impressions of `requestMixed` only the middle one parses;
it alone is forwarded, with tag identifier `12345`.  On the request of
`TestMakeRequestsWithPbadslotReplacement`, with suppression on, the one impression is
forwarded with the extension the test expects, and the outbound body holds that one
impression. -/
theorem MakeRequests_forwarded_imps_witness :
    (mutatedRequest sampleLib sampleAdapter requestMixed).1.Imp =
      [{ ID := "3_1", TagID := "12345", Ext := docImpPlain, Untouched := "" }]
    ∧ (mutatedRequest sampleLib (Builder sampleLib suppressConfig).1 requestPbadslot).1.Imp =
      [{ ID := "1_1", TagID := "", Ext := docImpRedacted, Untouched := "" }]
    ∧ (MakeRequests sampleLib (Builder sampleLib suppressConfig).1 requestPbadslot).1.map
        (fun rd => rd.Body) =
      [bytesOf ("\x7b\"id\":\"\",\"imp\":[\x7b\"id\":\"1_1\",\"ext\":\x7b\"bidder\":\x7b\x7d,"
        ++ "\"data\":\x7b\"adserver\":\x7b\"name\":\"test\",\"adslot\":\"adslot123\"\x7d\x7d\x7d\x7d]\x7d")] :=
  ⟨(MakeRequests_forwarded_imps sampleLib sampleAdapter requestMixed).1.trans (by decide),
   (MakeRequests_forwarded_imps sampleLib (Builder sampleLib suppressConfig).1
      requestPbadslot).1.trans (by decide),
   by decide⟩

/-- C3: the errors that `MakeRequests` returns begin with the errors recorded for the
impressions, in order; every impression that is not forwarded has a `BadInput` among the
errors recorded for it; hence the dropped impressions are at most as many as the `BadInput`
errors returned, and at most as many as the errors returned. -/
theorem MakeRequests_dropped_imps_reported (lib : JsonLib) (a : adapter) (request : BidRequest) :
    request.Imp.flatMap (impErrors lib (getSuppressPbadslot a.extraAdapterInfo))
        <+: (MakeRequests lib a request).2
    ∧ (∀ imp ∈ request.Imp,
        forwardedImp lib (getSuppressPbadslot a.extraAdapterInfo) imp = none →
        ∃ e ∈ impErrors lib (getSuppressPbadslot a.extraAdapterInfo) imp, e.isBadInput = true)
    ∧ request.Imp.length - (mutatedRequest lib a request).1.Imp.length
        ≤ (MakeRequests lib a request).2.countP GoError.isBadInput
    ∧ request.Imp.length - (mutatedRequest lib a request).1.Imp.length
        ≤ (MakeRequests lib a request).2.length := by
  obtain ⟨extra1, h1⟩ := MakeRequests_errors lib a request
  obtain ⟨extra2, h2⟩ := updateRequestExt_errors lib request.Ext
    (firstPriceType lib (getSuppressPbadslot a.extraAdapterInfo) request.Imp)
    (request.Imp.flatMap (impErrors lib (getSuppressPbadslot a.extraAdapterInfo)))
  have hmut := mutatedRequest_eq lib a request
  have herrs : (MakeRequests lib a request).2 =
      request.Imp.flatMap (impErrors lib (getSuppressPbadslot a.extraAdapterInfo))
        ++ (extra2 ++ extra1) := by
    rw [h1, hmut]
    simp only []
    rw [h2, List.append_assoc]
  have himp : (mutatedRequest lib a request).1.Imp =
      request.Imp.filterMap (forwardedImp lib (getSuppressPbadslot a.extraAdapterInfo)) := by
    rw [hmut]
  have hcount := dropped_le_badInput lib (getSuppressPbadslot a.extraAdapterInfo) request.Imp
  have hcountP : request.Imp.length - (mutatedRequest lib a request).1.Imp.length
      ≤ (MakeRequests lib a request).2.countP GoError.isBadInput := by
    rw [herrs, himp, List.countP_append]
    omega
  refine ⟨?_, ?_, hcountP, ?_⟩
  · rw [herrs]
    exact List.prefix_append _ _
  · intro imp _ hnone
    exact impErrors_of_dropped lib _ imp ((forwardedImp_eq_none_iff lib _ imp).1 hnone)
  · exact Nat.le_trans hcountP (List.countP_le_length _)

/-- Witness of C3: `requestMixed` loses two of its three impressions, and two `BadInput`
errors are returned. -/
theorem MakeRequests_dropped_imps_reported_witness :
    requestMixed.Imp.length - (mutatedRequest sampleLib sampleAdapter requestMixed).1.Imp.length
        ≤ (MakeRequests sampleLib sampleAdapter requestMixed).2.countP GoError.isBadInput
    ∧ requestMixed.Imp.length
        - (mutatedRequest sampleLib sampleAdapter requestMixed).1.Imp.length = 2
    ∧ (MakeRequests sampleLib sampleAdapter requestMixed).2.countP GoError.isBadInput = 2 :=
  ⟨(MakeRequests_dropped_imps_reported sampleLib sampleAdapter requestMixed).2.2.1,
    by decide, by decide⟩

/-- C4: when the top-level extension is absent (empty) or parseable and some parsing
impression names a non-empty price type, the top-level extension that `MakeRequests`
produces is the serialization of the extension record (the parsed one, or the zero record
when the extension is absent) with its field `pt` set to the price type of the first such
impression in original order: no parsing impression before it names a price type, and the
price types of the impressions after it play no part.  When that serialization reports no
error, this step adds no error. -/
theorem MakeRequests_first_price_type (lib : JsonLib) (a : adapter) (request : BidRequest)
    (hext : len request.Ext = 0 ∨ ∃ v, lib.unmarshalRequestExt request.Ext = .ok v)
    (hpt : ∃ imp ∈ request.Imp, ∃ x,
      parsedImpExt lib (getSuppressPbadslot a.extraAdapterInfo) imp = some x
        ∧ x.PriceType ≠ "") :
    ∃ pre imp post x base,
      request.Imp = pre ++ imp :: post
      ∧ parsedImpExt lib (getSuppressPbadslot a.extraAdapterInfo) imp = some x
      ∧ x.PriceType ≠ ""
      ∧ (∀ j ∈ pre, ∀ y,
          parsedImpExt lib (getSuppressPbadslot a.extraAdapterInfo) j = some y →
          y.PriceType = "")
      ∧ ((len request.Ext = 0 ∧ base = adfRequestExt.zero)
          ∨ (0 < len request.Ext ∧ lib.unmarshalRequestExt request.Ext = .ok base))
      ∧ (mutatedRequest lib a request).1.Ext =
          (lib.marshalRequestExt { base with PriceType := x.PriceType }).1
      ∧ ((lib.marshalRequestExt { base with PriceType := x.PriceType }).2 = none →
          (mutatedRequest lib a request).2 =
            request.Imp.flatMap (impErrors lib (getSuppressPbadslot a.extraAdapterInfo))) := by
  obtain ⟨pre, imp, post, x, hsplit, hx, hne, hpre, hfirst⟩ :=
    firstPriceType_first lib (getSuppressPbadslot a.extraAdapterInfo) request.Imp hpt
  have hmut := mutatedRequest_eq lib a request
  rw [hfirst] at hmut
  by_cases hlen : len request.Ext > 0
  · have hv : ∃ v, lib.unmarshalRequestExt request.Ext = .ok v := by
      rcases hext with h0 | hv
      · omega
      · exact hv
    obtain ⟨v, hv⟩ := hv
    refine ⟨pre, imp, post, x, v, hsplit, hx, hne, hpre, Or.inr ⟨hlen, hv⟩, ?_, ?_⟩
    · rw [hmut]
      simp only [updateRequestExt, ne_eq, hne, not_false_eq_true, if_true, hlen, hv]
      cases hm : (lib.marshalRequestExt { v with PriceType := x.PriceType }).2 <;> simp [hm]
    · intro hm
      rw [hmut]
      simp [updateRequestExt, hne, hlen, hv, hm]
  · have h0 : len request.Ext = 0 := by omega
    refine ⟨pre, imp, post, x, adfRequestExt.zero, hsplit, hx, hne, hpre, Or.inl ⟨h0, rfl⟩,
      ?_, ?_⟩
    · rw [hmut]
      simp only [updateRequestExt, ne_eq, hne, not_false_eq_true, if_true, hlen]
      cases hm : (lib.marshalRequestExt { adfRequestExt.zero with PriceType := x.PriceType }).2 <;>
        simp [hm]
    · intro hm
      rw [hmut]
      simp [updateRequestExt, hne, hlen, hm]

/-- Witness of C4: the impressions of `requestTwoPriceTypes` name `gross` and `net`, in
that order; the top-level extension produced is `{"prebid":{},"pt":"gross"}`. -/
theorem MakeRequests_first_price_type_witness :
    (∃ pre imp post x base,
      requestTwoPriceTypes.Imp = pre ++ imp :: post
      ∧ parsedImpExt sampleLib (getSuppressPbadslot sampleAdapter.extraAdapterInfo) imp = some x
      ∧ x.PriceType ≠ ""
      ∧ (∀ j ∈ pre, ∀ y,
          parsedImpExt sampleLib (getSuppressPbadslot sampleAdapter.extraAdapterInfo) j = some y →
          y.PriceType = "")
      ∧ ((len requestTwoPriceTypes.Ext = 0 ∧ base = adfRequestExt.zero)
          ∨ (0 < len requestTwoPriceTypes.Ext
              ∧ sampleLib.unmarshalRequestExt requestTwoPriceTypes.Ext = .ok base))
      ∧ (mutatedRequest sampleLib sampleAdapter requestTwoPriceTypes).1.Ext =
          (sampleLib.marshalRequestExt { base with PriceType := x.PriceType }).1
      ∧ ((sampleLib.marshalRequestExt { base with PriceType := x.PriceType }).2 = none →
          (mutatedRequest sampleLib sampleAdapter requestTwoPriceTypes).2 =
            requestTwoPriceTypes.Imp.flatMap
              (impErrors sampleLib (getSuppressPbadslot sampleAdapter.extraAdapterInfo))))
    ∧ (mutatedRequest sampleLib sampleAdapter requestTwoPriceTypes).1.Ext = docRequestExtGross :=
  ⟨MakeRequests_first_price_type sampleLib sampleAdapter requestTwoPriceTypes
      (Or.inl (by decide))
      ⟨{ ID := "1_1", TagID := "", Ext := docImpNet, Untouched := "" }, by decide,
        { MasterTagID := "828783", PriceType := "net" }, by decide, by decide⟩,
    by decide⟩

/-! ## Lemmas on maps -/

theorem mapLookup_mapDelete_self {α : Type} (k : String) (m : GoMap α) :
    mapLookup k (mapDelete k m) = none := by
  induction m with
  | nil => rfl
  | cons kv rest ih =>
    by_cases h : kv.1 = k
    · simpa [mapDelete, List.filter_cons, h] using ih
    · simp only [mapDelete, List.filter_cons, ne_eq, h, not_false_eq_true, decide_True, if_true,
        mapLookup, if_false]
      simpa [mapDelete] using ih

theorem mapLookup_mapDelete_ne {α : Type} (k k' : String) (m : GoMap α) (hne : k' ≠ k) :
    mapLookup k' (mapDelete k m) = mapLookup k' m := by
  induction m with
  | nil => rfl
  | cons kv rest ih =>
    by_cases h : kv.1 = k
    · have hk : ¬ kv.1 = k' := fun h' => hne (h'.symm.trans h)
      have hk2 : ¬ k = k' := fun h' => hne h'.symm
      simp only [mapDelete, List.filter_cons, ne_eq, h, not_true_eq_false, decide_False,
        Bool.false_eq_true, if_false, mapLookup, hk]
      simpa [mapDelete, hk2] using ih
    · simp only [mapDelete, List.filter_cons, ne_eq, h, not_false_eq_true, decide_True, if_true,
        mapLookup]
      by_cases hk : kv.1 = k'
      · simp [hk]
      · simp only [hk, if_false]
        simpa [mapDelete] using ih

theorem mapLookup_mapSet_self {α : Type} (k : String) (v : α) (m : GoMap α) :
    mapLookup k (mapSet k v m) = some v := by
  simp [mapSet, mapLookup]

theorem mapLookup_mapSet_ne {α : Type} (k k' : String) (v : α) (m : GoMap α) (hne : k' ≠ k) :
    mapLookup k' (mapSet k v m) = mapLookup k' m := by
  have hk : ¬ k = k' := fun h => hne h.symm
  simp only [mapSet, mapLookup, hk, if_false]
  exact mapLookup_mapDelete_ne k k' m hne

/-! ## Properties of `pbadslotEditor` and `getSuppressPbadslot` -/

/-- C11: when the extension parses as an object whose member `data` parses as an object
that has the key `pbadslot`, `pbadslotEditor` with suppression on records no error and
returns the serialization of an object that differs from the parsed one only in its member
`data`, which is the serialization of the parsed `data` object without the key `pbadslot`:
every other member of either object keeps its value and none is added. -/
theorem pbadslotEditor_removes_pbadslot (lib : JsonLib) (ext : RawMessage)
    (errors : List GoError) (m : GoMap RawMessage) (dataVal : RawMessage) (d : GoMap RawMessage)
    (hext : lib.unmarshalObject ext = .ok m) (hdata : mapLookup "data" m = some dataVal)
    (hobj : lib.unmarshalObject dataVal = .ok d)
    (hkey : (mapLookup "pbadslot" d).isSome = true) :
    ∃ inner outer,
      pbadslotEditor lib ext true errors = ((lib.marshalObject outer).1, errors)
      ∧ mapLookup "data" outer = some (lib.marshalObject inner).1
      ∧ (∀ k, k ≠ "data" → mapLookup k outer = mapLookup k m)
      ∧ mapLookup "pbadslot" inner = none
      ∧ (∀ k, k ≠ "pbadslot" → mapLookup k inner = mapLookup k d) := by
  refine ⟨mapDelete "pbadslot" d,
    mapSet "data" (lib.marshalObject (mapDelete "pbadslot" d)).1 m, ?_,
    mapLookup_mapSet_self _ _ _, fun k hk => mapLookup_mapSet_ne _ _ _ _ hk,
    mapLookup_mapDelete_self _ _, fun k hk => mapLookup_mapDelete_ne _ _ _ hk⟩
  simp [pbadslotEditor, hext, hdata, hobj, hkey]

/-- Witness of C11: the extension of `TestExtProcessing` (`adf_test.go`, lines 94-95)
yields exactly `{"data":{"adserver":{"name":"test","adslot":"adslot123"}}}`. -/
theorem pbadslotEditor_removes_pbadslot_witness :
    (∃ inner outer,
      pbadslotEditor sampleLib docExtPbadslot true [] = ((sampleLib.marshalObject outer).1, [])
      ∧ mapLookup "data" outer = some (sampleLib.marshalObject inner).1
      ∧ (∀ k, k ≠ "data" → mapLookup k outer = mapLookup k [("data", docDataPbadslot)])
      ∧ mapLookup "pbadslot" inner = none
      ∧ (∀ k, k ≠ "pbadslot" → mapLookup k inner =
          mapLookup k [("adserver", docAdserver), ("pbadslot", bytesOf "\"pbadslot123\"")]))
    ∧ pbadslotEditor sampleLib docExtPbadslot true [] = (docExtRedacted, []) :=
  ⟨pbadslotEditor_removes_pbadslot sampleLib docExtPbadslot [] [("data", docDataPbadslot)]
      docDataPbadslot [("adserver", docAdserver), ("pbadslot", bytesOf "\"pbadslot123\"")]
      (by decide) (by decide) (by decide) (by decide),
    by decide⟩

/-- C12: when the extension fails to parse as an object, or parses but its member `data`
fails to parse as an object, `pbadslotEditor` with suppression on returns the input bytes
unchanged and appends exactly one error, a `BadInput` that carries the text of the parse
error, after the errors accumulated before. -/
theorem pbadslotEditor_malformed (lib : JsonLib) (ext : RawMessage) (errors : List GoError)
    (h : (∃ e, lib.unmarshalObject ext = .error e)
      ∨ (∃ m dataVal e, lib.unmarshalObject ext = .ok m ∧ mapLookup "data" m = some dataVal
          ∧ lib.unmarshalObject dataVal = .error e)) :
    ∃ e, pbadslotEditor lib ext true errors = (ext, errors ++ [GoError.BadInput e.Error])
      ∧ (lib.unmarshalObject ext = .error e
        ∨ ∃ m dataVal, lib.unmarshalObject ext = .ok m ∧ mapLookup "data" m = some dataVal
            ∧ lib.unmarshalObject dataVal = .error e) := by
  rcases h with ⟨e, he⟩ | ⟨m, dataVal, e, hm, hd, he⟩
  · exact ⟨e, by simp [pbadslotEditor, he], Or.inl he⟩
  · exact ⟨e, by simp [pbadslotEditor, hm, hd, he], Or.inr ⟨m, dataVal, hm, hd, he⟩⟩

/-- Witness of C12: the two inputs of
`TestPbadslotEditorReturnsOriginalInputIfOriginalInputIsMalformed` (`adf_test.go`, lines
69 and 80) come back unchanged with one error more each, and so does `{"data":"x"}`, whose
member `data` is valid JSON but not an object. -/
theorem pbadslotEditor_malformed_witness :
    (∃ e, pbadslotEditor sampleLib docMalformed true [] =
        (docMalformed, [] ++ [GoError.BadInput e.Error])
      ∧ (sampleLib.unmarshalObject docMalformed = .error e
        ∨ ∃ m dataVal, sampleLib.unmarshalObject docMalformed = .ok m
            ∧ mapLookup "data" m = some dataVal
            ∧ sampleLib.unmarshalObject dataVal = .error e))
    ∧ pbadslotEditor sampleLib docMalformed true [] =
        (docMalformed, [GoError.BadInput syntaxErrorText])
    ∧ pbadslotEditor sampleLib docBrokenData true [GoError.BadInput syntaxErrorText] =
        (docBrokenData, [GoError.BadInput syntaxErrorText, GoError.BadInput syntaxErrorText])
    ∧ pbadslotEditor sampleLib docDataIsString true [] =
        (docDataIsString, [GoError.BadInput
          "json: cannot unmarshal string into Go value of type map[string]json.RawMessage"]) :=
  ⟨pbadslotEditor_malformed sampleLib docMalformed []
      (Or.inl ⟨GoError.other syntaxErrorText, by decide⟩),
    by decide, by decide, by decide⟩

/-- C13: when the extension parses as an object that has no member `data`, or whose member
`data` parses as an object without the key `pbadslot`, `pbadslotEditor` returns the input
bytes unchanged and records no error, whatever the suppression flag. -/
theorem pbadslotEditor_nothing_to_remove (lib : JsonLib) (ext : RawMessage) (suppress : Bool)
    (errors : List GoError) (m : GoMap RawMessage)
    (hext : lib.unmarshalObject ext = .ok m)
    (h : mapLookup "data" m = none
      ∨ ∃ dataVal d, mapLookup "data" m = some dataVal ∧ lib.unmarshalObject dataVal = .ok d
          ∧ mapLookup "pbadslot" d = none) :
    pbadslotEditor lib ext suppress errors = (ext, errors) := by
  cases suppress
  · simp [pbadslotEditor]
  · rcases h with h | ⟨dataVal, d, hd, hobj, hkey⟩
    · simp [pbadslotEditor, hext, h]
    · simp [pbadslotEditor, hext, hd, hobj, hkey]

/-- Witness of C13: the extension of `TestExtProcessing` that needs no editing
(`adf_test.go`, line 109), with suppression on, and an object without `data`, with
suppression off. -/
theorem pbadslotEditor_nothing_to_remove_witness :
    pbadslotEditor sampleLib docExtNotPbadslot true [] = (docExtNotPbadslot, [])
    ∧ pbadslotEditor sampleLib docImpPlain false [] = (docImpPlain, []) :=
  ⟨pbadslotEditor_nothing_to_remove sampleLib docExtNotPbadslot true []
      [("data", docDataNotPbadslot)] (by decide)
      (Or.inr ⟨docDataNotPbadslot,
        [("adserver", docAdserver), ("notpbadslot", bytesOf "\"notpbadslot\"")],
        by decide, by decide, by decide⟩),
   pbadslotEditor_nothing_to_remove sampleLib docImpPlain false []
      [("bidder", docBidderPlain)] (by decide) (Or.inl (by decide))⟩

/-- C14: with the suppression flag off, `pbadslotEditor` returns the input bytes and the
error sink as they are, for every input, well-formed or not. -/
theorem pbadslotEditor_disabled (lib : JsonLib) (ext : RawMessage) (errors : List GoError) :
    pbadslotEditor lib ext false errors = (ext, errors) := by
  simp [pbadslotEditor]

/-- C15: `getSuppressPbadslot` returns true exactly when the mapping has the key
`suppresskeywords` and the string `pbadslot` occurs among the values of that key. -/
theorem getSuppressPbadslot_iff (extraAdapterInfo : GoMap (List String)) :
    getSuppressPbadslot extraAdapterInfo = true ↔
      ∃ value, mapLookup "suppresskeywords" extraAdapterInfo = some value
        ∧ "pbadslot" ∈ value := by
  unfold getSuppressPbadslot
  cases h : mapLookup "suppresskeywords" extraAdapterInfo with
  | none => simp
  | some value =>
    have hc : slicesContains value "pbadslot" = true ↔ "pbadslot" ∈ value := by
      simp [slicesContains, List.any_eq_true]
    by_cases hv : slicesContains value "pbadslot" = true
    · simp [hv, hc.1 hv]
    · have hn : "pbadslot" ∉ value := fun hm => hv (hc.2 hm)
      simp [hv, hn]

/-- Witness of C15: the three mappings of `TestGetSuppressPbadslot`. -/
theorem getSuppressPbadslot_iff_witness :
    getSuppressPbadslot infoWithValue = true
    ∧ getSuppressPbadslot infoWithoutValue = false
    ∧ getSuppressPbadslot infoWithoutKey = false :=
  ⟨(getSuppressPbadslot_iff infoWithValue).2 ⟨["value1", "pbadslot"], by decide, by decide⟩,
    by decide, by decide⟩

/-! ## Further lemmas on `MakeRequests` -/

theorem MakeRequests_errors_eq (lib : JsonLib) (a : adapter) (request : BidRequest) :
    (MakeRequests lib a request).2 =
      (mutatedRequest lib a request).2
        ++ (lib.marshalBidRequest (mutatedRequest lib a request).1).2.toList := by
  unfold MakeRequests
  cases h : (lib.marshalBidRequest (mutatedRequest lib a request).1).2 <;> simp [h]

theorem firstPriceType_of_no_price_type (lib : JsonLib) (suppress : Bool) (imps : List Imp)
    (h : ∀ imp ∈ imps, ∀ x, parsedImpExt lib suppress imp = some x → x.PriceType = "") :
    firstPriceType lib suppress imps = "" := by
  induction imps with
  | nil => rfl
  | cons imp rest ih =>
    have hrest := ih (fun j hj => h j (List.mem_cons_of_mem _ hj))
    cases hp : parsedImpExt lib suppress imp with
    | none => simpa [firstPriceType, hp] using hrest
    | some x =>
      have hx := h imp (List.mem_cons_self _ _) x hp
      simpa [firstPriceType, hp, hx] using hrest

theorem parsedImpExt_ext_codec (lib : JsonLib) (suppress : Bool) (imp : Imp)
    (f : Bytes → Except GoError adfRequestExt) (g : adfRequestExt → Bytes × Option GoError) :
    parsedImpExt { lib with unmarshalRequestExt := f, marshalRequestExt := g } suppress imp
      = parsedImpExt lib suppress imp := rfl

theorem firstPriceType_ext_codec (lib : JsonLib) (suppress : Bool) (imps : List Imp)
    (f : Bytes → Except GoError adfRequestExt) (g : adfRequestExt → Bytes × Option GoError) :
    firstPriceType { lib with unmarshalRequestExt := f, marshalRequestExt := g } suppress imps
      = firstPriceType lib suppress imps := by
  induction imps with
  | nil => rfl
  | cons imp rest ih => simp only [firstPriceType, parsedImpExt_ext_codec, ih]

/-! ## Properties of `Builder` -/

/-- C16: `Builder` returns an adapter and no error for every configuration.  When the extra
information does not parse, the adapter holds the endpoint and an empty mapping, so that
suppression is off, the redaction step returns every impression extension as it is, and
every impression that `MakeRequests` forwards carries the extension of its input
impression. -/
theorem Builder_never_fails (lib : JsonLib) (config : ConfigAdapter) :
    (Builder lib config).2 = none
    ∧ (Builder lib config).1.endpoint = config.Endpoint
    ∧ ((∃ e, lib.unmarshalExtraAdapterInfo (bytesOf config.ExtraAdapterInfo) = .error e) →
        (Builder lib config).1 = { endpoint := config.Endpoint, extraAdapterInfo := [] }
        ∧ getSuppressPbadslot (Builder lib config).1.extraAdapterInfo = false
        ∧ (∀ imp : Imp,
            redactedExt lib (getSuppressPbadslot (Builder lib config).1.extraAdapterInfo) imp
              = imp.Ext)
        ∧ (∀ request : BidRequest,
            ∀ out ∈ (mutatedRequest lib (Builder lib config).1 request).1.Imp,
              ∃ imp ∈ request.Imp,
                out.Ext = imp.Ext ∧ out.ID = imp.ID ∧ out.Untouched = imp.Untouched)) := by
  refine ⟨rfl, rfl, ?_⟩
  rintro ⟨e, he⟩
  have hb : (Builder lib config).1 = { endpoint := config.Endpoint, extraAdapterInfo := [] } := by
    simp [Builder, he]
  have hs : getSuppressPbadslot (Builder lib config).1.extraAdapterInfo = false := by
    rw [hb]
    rfl
  have hred : ∀ imp : Imp,
      redactedExt lib (getSuppressPbadslot (Builder lib config).1.extraAdapterInfo) imp
        = imp.Ext := by
    intro imp
    rw [hs]
    simp [redactedExt, pbadslotEditor]
  refine ⟨hb, hs, hred, ?_⟩
  intro request out hout
  rw [mutatedRequest_eq] at hout
  simp only [List.mem_filterMap] at hout
  obtain ⟨imp, hmem, hfw⟩ := hout
  unfold forwardedImp at hfw
  cases hp : parsedImpExt lib
      (getSuppressPbadslot (Builder lib config).1.extraAdapterInfo) imp with
  | none => simp [hp] at hfw
  | some v =>
    simp only [hp, Option.map_some', Option.some.injEq] at hfw
    subst hfw
    exact ⟨imp, hmem, hred imp, rfl, rfl⟩

/-- Witness of C16: the configuration of `TestJsonSamples`, whose extra information
`{"suppressPbadslotdetails": "true"}` is not a mapping to string sequences. -/
theorem Builder_never_fails_witness :
    Builder sampleLib jsonSamplesConfig =
        ({ endpoint := "https://adx.adform.net/adx/openrtb", extraAdapterInfo := [] }, none)
    ∧ (Builder sampleLib jsonSamplesConfig).1 =
        { endpoint := jsonSamplesConfig.Endpoint, extraAdapterInfo := [] }
    ∧ (mutatedRequest sampleLib (Builder sampleLib jsonSamplesConfig).1 requestPbadslot).1.Imp =
        [{ ID := "1_1", TagID := "", Ext := docImpPbadslot, Untouched := "" }] :=
  ⟨by decide,
   ((Builder_never_fails sampleLib jsonSamplesConfig).2.2
      ⟨GoError.other "json: cannot unmarshal string into Go value of type []string",
        by decide⟩).1,
   by decide⟩

/-! ## Properties of `MakeRequests` on the top-level extension and on unparseable input -/

/-- C17, as amended: when a price type is captured and the non-empty top-level extension
fails to parse, `MakeRequests` records the parse error after the errors of the impressions
and leaves the top-level extension as it was, and goes on to serialize the request.  When
that serialization succeeds it returns one outbound request together with the accumulated
errors; when it fails it returns no request, and the accumulated errors followed by the
serialization error. -/
theorem MakeRequests_ext_parse_failure (lib : JsonLib) (a : adapter) (request : BidRequest)
    (err : GoError)
    (hpt : ∃ imp ∈ request.Imp, ∃ x,
      parsedImpExt lib (getSuppressPbadslot a.extraAdapterInfo) imp = some x
        ∧ x.PriceType ≠ "")
    (hlen : 0 < len request.Ext)
    (hparse : lib.unmarshalRequestExt request.Ext = .error err) :
    (mutatedRequest lib a request).1.Ext = request.Ext
    ∧ (mutatedRequest lib a request).2 =
        request.Imp.flatMap (impErrors lib (getSuppressPbadslot a.extraAdapterInfo)) ++ [err]
    ∧ ((lib.marshalBidRequest (mutatedRequest lib a request).1).2 = none →
        MakeRequests lib a request =
          ([{ Method := "POST", Uri := a.endpoint,
              Body := (lib.marshalBidRequest (mutatedRequest lib a request).1).1 }],
           request.Imp.flatMap (impErrors lib (getSuppressPbadslot a.extraAdapterInfo))
             ++ [err]))
    ∧ (∀ e, (lib.marshalBidRequest (mutatedRequest lib a request).1).2 = some e →
        MakeRequests lib a request =
          ([], request.Imp.flatMap (impErrors lib (getSuppressPbadslot a.extraAdapterInfo))
            ++ [err] ++ [e])) := by
  obtain ⟨pre, imp, post, x, _, _, hne, _, hfirst⟩ :=
    firstPriceType_first lib (getSuppressPbadslot a.extraAdapterInfo) request.Imp hpt
  have hmut := mutatedRequest_eq lib a request
  rw [hfirst] at hmut
  have hupd : updateRequestExt lib request.Ext x.PriceType
      (request.Imp.flatMap (impErrors lib (getSuppressPbadslot a.extraAdapterInfo))) =
      (request.Ext,
        request.Imp.flatMap (impErrors lib (getSuppressPbadslot a.extraAdapterInfo))
          ++ [err]) := by
    simp [updateRequestExt, hne, hlen, hparse]
  rw [hupd] at hmut
  have h2 : (mutatedRequest lib a request).2 =
      request.Imp.flatMap (impErrors lib (getSuppressPbadslot a.extraAdapterInfo)) ++ [err] := by
    rw [hmut]
  refine ⟨by rw [hmut], h2, ?_, ?_⟩
  · intro hser
    unfold MakeRequests
    simp [hser, h2]
  · intro e hser
    unfold MakeRequests
    simp [hser, h2]

/-- Witness of C17, as amended: the top-level extension `"x"` does not parse into the
extension record; it is left as it is, the parse error is recorded, and one request is
returned. -/
theorem MakeRequests_ext_parse_failure_witness :
    (mutatedRequest sampleLib sampleAdapter requestStringExt).1.Ext = docBidderBad
    ∧ (MakeRequests sampleLib sampleAdapter requestStringExt).1.length = 1
    ∧ (MakeRequests sampleLib sampleAdapter requestStringExt).2 =
        [GoError.other "json: cannot unmarshal string into Go value of type adf.adfRequestExt"] :=
  ⟨(MakeRequests_ext_parse_failure sampleLib sampleAdapter requestStringExt
      (GoError.other "json: cannot unmarshal string into Go value of type adf.adfRequestExt")
      ⟨{ ID := "5_0", TagID := "", Ext := docImpGross, Untouched := "" }, by decide,
        { MasterTagID := "828782", PriceType := "gross" }, by decide, by decide⟩
      (by decide) (by decide)).1.trans (by decide),
   by decide, by decide⟩

/-- Counterexample to C17 as stated: the impression of `requestMalformedExt` names the
price type `gross` and the top-level extension `{1:2}` is non-empty and fails to parse, yet
`MakeRequests` returns no outbound request: the unparseable extension is left in the
request, whose serialization then fails. -/
theorem MakeRequests_ext_parse_failure_counterexample :
    parsedImpExt sampleLib (getSuppressPbadslot sampleAdapter.extraAdapterInfo)
        { ID := "4_0", TagID := "", Ext := docImpGross, Untouched := "" } =
      some { MasterTagID := "828782", PriceType := "gross" }
    ∧ 0 < len requestMalformedExt.Ext
    ∧ sampleLib.unmarshalRequestExt requestMalformedExt.Ext =
        .error (GoError.other syntaxErrorText)
    ∧ MakeRequests sampleLib sampleAdapter requestMalformedExt =
        ([], [GoError.other syntaxErrorText, GoError.other rawMessageErrorText]) := by
  decide

/-- C18: for a request with a single impression whose extension parses neither as an
object nor as a bidder envelope, no impression is forwarded; with suppression on, the
errors recorded are exactly two `BadInput`, the first from the redaction helper and the
second from the envelope parse of the unchanged bytes; with suppression off, exactly one,
from the envelope parse.  `MakeRequests` returns these errors, followed only by the error
of the final serialization if that fails. -/
theorem MakeRequests_unparseable_single_imp (lib : JsonLib) (a : adapter)
    (request : BidRequest) (imp : Imp) (e1 e2 : GoError)
    (himp : request.Imp = [imp])
    (hobj : lib.unmarshalObject imp.Ext = .error e1)
    (henv : lib.unmarshalExtImpBidder imp.Ext = .error e2) :
    (mutatedRequest lib a request).1.Imp = []
    ∧ (getSuppressPbadslot a.extraAdapterInfo = true →
        (mutatedRequest lib a request).2 =
          [GoError.BadInput e1.Error, GoError.BadInput e2.Error])
    ∧ (getSuppressPbadslot a.extraAdapterInfo = false →
        (mutatedRequest lib a request).2 = [GoError.BadInput e2.Error])
    ∧ (MakeRequests lib a request).2 =
        (mutatedRequest lib a request).2
          ++ (lib.marshalBidRequest (mutatedRequest lib a request).1).2.toList := by
  have hmut := mutatedRequest_eq lib a request
  have hparsed : ∀ s, parsedImpExt lib s imp = none := by
    intro s
    cases s <;> simp [parsedImpExt, redactedExt, pbadslotEditor, hobj, henv]
  have hfw : ∀ s, forwardedImp lib s imp = none := fun s =>
    (forwardedImp_eq_none_iff lib s imp).2 (hparsed s)
  have hpt : ∀ s, firstPriceType lib s [imp] = "" := fun s =>
    firstPriceType_of_none lib s [imp] (by simpa using hparsed s)
  rw [himp, hpt, updateRequestExt_empty] at hmut
  refine ⟨?_, ?_, ?_, MakeRequests_errors_eq lib a request⟩
  · rw [hmut]
    simp [hfw]
  · intro hs
    rw [hmut, hs]
    simp [impErrors, impLoopBody, pbadslotEditor, hobj, henv]
  · intro hs
    rw [hmut, hs]
    simp [impErrors, impLoopBody, pbadslotEditor, henv]

/-- Witness of C18: the single impression of `requestOneMalformed` has the extension
`{1:2}`; with suppression on two `BadInput` errors are returned, with suppression off
one. -/
theorem MakeRequests_unparseable_single_imp_witness :
    (MakeRequests sampleLib (Builder sampleLib suppressConfig).1 requestOneMalformed).2 =
        [GoError.BadInput syntaxErrorText, GoError.BadInput syntaxErrorText]
    ∧ (MakeRequests sampleLib sampleAdapter requestOneMalformed).2 =
        [GoError.BadInput syntaxErrorText]
    ∧ (mutatedRequest sampleLib (Builder sampleLib suppressConfig).1 requestOneMalformed).1.Imp
        = [] :=
  ⟨((MakeRequests_unparseable_single_imp sampleLib (Builder sampleLib suppressConfig).1
        requestOneMalformed { ID := "6_0", TagID := "", Ext := docMalformed, Untouched := "" }
        (GoError.other syntaxErrorText) (GoError.other syntaxErrorText)
        rfl (by decide) (by decide)).2.2.2).trans (by decide),
   by decide,
   (MakeRequests_unparseable_single_imp sampleLib (Builder sampleLib suppressConfig).1
        requestOneMalformed { ID := "6_0", TagID := "", Ext := docMalformed, Untouched := "" }
        (GoError.other syntaxErrorText) (GoError.other syntaxErrorText)
        rfl (by decide) (by decide)).1⟩

/-- C20: when no parsing impression names a non-empty price type, the top-level extension
of the request that `MakeRequests` serializes is the input extension, byte for byte, and the
errors accumulated are exactly the errors of the impressions: none is recorded for the
top-level extension.  The outcome does not depend on how the library parses or serializes
the extension record, which is therefore neither parsed nor re-serialized. -/
theorem MakeRequests_no_price_type (lib : JsonLib) (a : adapter) (request : BidRequest)
    (h : ∀ imp ∈ request.Imp, ∀ x,
      parsedImpExt lib (getSuppressPbadslot a.extraAdapterInfo) imp = some x →
      x.PriceType = "") :
    (mutatedRequest lib a request).1.Ext = request.Ext
    ∧ (mutatedRequest lib a request).2 =
        request.Imp.flatMap (impErrors lib (getSuppressPbadslot a.extraAdapterInfo))
    ∧ (∀ (f : Bytes → Except GoError adfRequestExt)
        (g : adfRequestExt → Bytes × Option GoError),
        mutatedRequest { lib with unmarshalRequestExt := f, marshalRequestExt := g } a request
          = mutatedRequest lib a request) := by
  have hpt := firstPriceType_of_no_price_type lib _ request.Imp h
  have hmut := mutatedRequest_eq lib a request
  rw [hpt, updateRequestExt_empty] at hmut
  refine ⟨by rw [hmut], by rw [hmut], ?_⟩
  intro f g
  have hmut' := mutatedRequest_eq
    { lib with unmarshalRequestExt := f, marshalRequestExt := g } a request
  rw [firstPriceType_ext_codec, hpt, updateRequestExt_empty] at hmut'
  rw [hmut, hmut']
  rfl

/-- Witness of C20: the impression of `requestNoPriceType` parses and names no price type;
the top-level extension `{}` stays `{}` and no error is recorded. -/
theorem MakeRequests_no_price_type_witness :
    (mutatedRequest sampleLib sampleAdapter requestNoPriceType).1.Ext = docEmptyObject
    ∧ (mutatedRequest sampleLib sampleAdapter requestNoPriceType).2 = [] :=
  ⟨(MakeRequests_no_price_type sampleLib sampleAdapter requestNoPriceType (by decide)).1,
   (MakeRequests_no_price_type sampleLib sampleAdapter requestNoPriceType
      (by decide)).2.1.trans (by decide)⟩

/-! ## Idempotence of `pbadslotEditor` -/

theorem pbadslotEditor_first_pass (lib : JsonLib) (ext : RawMessage) :
    (pbadslotEditor lib ext true []).1 = ext
    ∨ ∃ m dataVal d, lib.unmarshalObject dataVal = .ok d
        ∧ (pbadslotEditor lib ext true []).1 =
            (lib.marshalObject
              (mapSet "data" (lib.marshalObject (mapDelete "pbadslot" d)).1 m)).1 := by
  unfold pbadslotEditor
  simp only [Bool.not_true, Bool.false_eq_true, if_false]
  cases h1 : lib.unmarshalObject ext with
  | error e => exact Or.inl rfl
  | ok m =>
    cases h2 : mapLookup "data" m with
    | none => exact Or.inl (by simp [h2])
    | some dataVal =>
      cases h3 : lib.unmarshalObject dataVal with
      | error e => exact Or.inl (by simp [h2, h3])
      | ok d =>
        by_cases h4 : (mapLookup "pbadslot" d).isSome
        · exact Or.inr ⟨m, dataVal, d, h3, by simp [h2, h3, h4]⟩
        · exact Or.inl (by simp [h2, h3, h4])

theorem pbadslotEditor_unchanged_of_no_key (lib : JsonLib) (ext : RawMessage)
    (h : ∀ m dataVal d, lib.unmarshalObject ext = .ok m → mapLookup "data" m = some dataVal →
      lib.unmarshalObject dataVal = .ok d → mapLookup "pbadslot" d = none) :
    (pbadslotEditor lib ext true []).1 = ext := by
  unfold pbadslotEditor
  simp only [Bool.not_true, Bool.false_eq_true, if_false]
  cases h1 : lib.unmarshalObject ext with
  | error e => rfl
  | ok m =>
    cases h2 : mapLookup "data" m with
    | none => simp [h2]
    | some dataVal =>
      cases h3 : lib.unmarshalObject dataVal with
      | error e => simp [h2, h3]
      | ok d => simp [h2, h3, h m dataVal d h1 h2 h3]

/-- C19: for a library whose object serialization round-trips, `pbadslotEditor` is
idempotent on its output: applied with the same flag to the bytes it returned, it returns
those bytes again, for every input, either value of the flag and any state of the error
sink. -/
theorem pbadslotEditor_idempotent (lib : JsonLib) (hlib : ObjectRoundTrip lib)
    (ext : RawMessage) (suppress : Bool) (errors errors' : List GoError) :
    (pbadslotEditor lib (pbadslotEditor lib ext suppress errors).1 suppress errors').1
      = (pbadslotEditor lib ext suppress errors).1 := by
  cases suppress
  · simp [pbadslotEditor]
  · rw [pbadslotEditor_sink lib ext true errors]
    simp only []
    rw [pbadslotEditor_sink lib _ true errors']
    simp only []
    rcases pbadslotEditor_first_pass lib ext with hsame | ⟨m, dataVal, d, hd, hout⟩
    · rw [hsame, hsame]
    · rw [hout]
      apply pbadslotEditor_unchanged_of_no_key
      intro m2 dataVal2 d2 hm2 hdata2 hd2
      have hok : (lib.marshalObject (mapDelete "pbadslot" d)).2 = none :=
        hlib.reencodes dataVal d "pbadslot" hd
      have hnested := hlib.nested _ m2 "data" (mapDelete "pbadslot" d) hm2 hok
        (mapLookup_mapSet_self _ _ _)
      rw [hdata2] at hnested
      cases hnested
      have hkeys := hlib.keys (mapDelete "pbadslot" d) d2 hd2 "pbadslot"
      rw [mapLookup_mapDelete_self] at hkeys
      cases hlook : mapLookup "pbadslot" d2 with
      | none => rfl
      | some v => simp [hlook] at hkeys

/-! ### The sample library round-trips -/

theorem lookupDoc_mem (data : Bytes) (table : List (Bytes × GoMap RawMessage))
    (m : GoMap RawMessage) (h : lookupDoc data table = some m) : (data, m) ∈ table := by
  induction table with
  | nil => simp [lookupDoc] at h
  | cons entry rest ih =>
    obtain ⟨doc, m0⟩ := entry
    by_cases hd : doc = data
    · simp only [lookupDoc, hd, if_true, Option.some.injEq] at h
      subst h
      subst hd
      exact List.mem_cons_self _ _
    · simp only [lookupDoc, hd, if_false] at h
      exact List.mem_cons_of_mem _ (ih h)

theorem filter_mem_subMaps (p : String × RawMessage → Bool) (m : GoMap RawMessage) :
    m.filter p ∈ subMaps m := by
  induction m with
  | nil => simp [subMaps]
  | cons kv rest ih =>
    by_cases hp : p kv = true
    · simp only [List.filter_cons, hp, if_true, subMaps, List.mem_append, List.mem_map]
      exact Or.inl ⟨rest.filter p, ih, rfl⟩
    · simp only [List.filter_cons, hp, Bool.false_eq_true, if_false, subMaps, List.mem_append]
      exact Or.inr ih

theorem mapLookup_eq_none_of_not_key {α : Type} (k : String) (m : GoMap α)
    (h : ∀ kv ∈ m, kv.1 ≠ k) : mapLookup k m = none := by
  induction m with
  | nil => rfl
  | cons kv rest ih =>
    have hkv : ¬ kv.1 = k := h kv (List.mem_cons_self _ _)
    simp only [mapLookup, hkv, if_false]
    exact ih (fun x hx => h x (List.mem_cons_of_mem _ hx))

theorem sameMembers_sound (m1 m2 : GoMap RawMessage) (h : sameMembers m1 m2 = true) (k : String) :
    mapLookup k m1 = mapLookup k m2 := by
  simp only [sameMembers, Bool.and_eq_true, List.all_eq_true, decide_eq_true_eq] at h
  by_cases h1 : ∃ kv ∈ m1, kv.1 = k
  · obtain ⟨kv, hmem, hk⟩ := h1
    rw [← hk]
    exact h.1 kv hmem
  · by_cases h2 : ∃ kv ∈ m2, kv.1 = k
    · obtain ⟨kv, hmem, hk⟩ := h2
      rw [← hk]
      exact h.2 kv hmem
    · rw [mapLookup_eq_none_of_not_key k m1 (fun kv hmem hk => h1 ⟨kv, hmem, hk⟩),
        mapLookup_eq_none_of_not_key k m2 (fun kv hmem hk => h2 ⟨kv, hmem, hk⟩)]

theorem sampleLib_unmarshalObject_listed (data : Bytes) (d : GoMap RawMessage)
    (h : sampleLib.unmarshalObject data = .ok d) : (data, d) ∈ objectTable := by
  apply lookupDoc_mem
  simp only [sampleLib] at h
  split at h
  · cases h
  · split at h
    · cases h
    · split at h
      · next m hm =>
        cases h
        exact hm
      · cases h

theorem sampleLib_marshalDomain_checked :
    marshalDomain.all (fun m =>
      match sampleLib.unmarshalObject (renderObject m) with
      | .ok m' => sameMembers m' m
      | .error _ => true) = true := by
  decide

theorem sampleLib_reparse (m m' : GoMap RawMessage)
    (h : sampleLib.unmarshalObject (sampleLib.marshalObject m).1 = .ok m') (k : String) :
    mapLookup k m' = mapLookup k m := by
  by_cases hm : m ∈ marshalDomain
  · have hmar : sampleLib.marshalObject m = (renderObject m, none) := by
      simp [sampleLib, hm]
    rw [hmar] at h
    have hall := sampleLib_marshalDomain_checked
    rw [List.all_eq_true] at hall
    have hcheck := hall m hm
    simp only [h] at hcheck
    exact sameMembers_sound m' m hcheck k
  · have hmar : sampleLib.marshalObject m = (none, some notListed) := by
      simp [sampleLib, hm]
    rw [hmar] at h
    have hnone : sampleLib.unmarshalObject none = .error notListed := by decide
    rw [hnone] at h
    cases h

theorem sampleLib_roundTrip : ObjectRoundTrip sampleLib where
  keys := by
    intro m m' h k
    rw [sampleLib_reparse m m' h k]
  nested := by
    intro m m' k x h _ hk
    rw [sampleLib_reparse m m' h k]
    exact hk
  reencodes := by
    intro data d k h
    have hlisted := sampleLib_unmarshalObject_listed data d h
    have hsub : mapDelete k d ∈ subMaps d := filter_mem_subMaps _ d
    have hdom : mapDelete k d ∈ marshalDomain := by
      unfold marshalDomain
      rw [List.mem_flatMap]
      exact ⟨(data, d), hlisted, hsub⟩
    simp [sampleLib, hdom]

/-- Witness of C19: the sample library round-trips; on the extension of `TestExtProcessing`
the first pass returns `{"data":{"adserver":{"name":"test","adslot":"adslot123"}}}` and the
second pass returns the same bytes. -/
theorem pbadslotEditor_idempotent_witness :
    ObjectRoundTrip sampleLib
    ∧ (pbadslotEditor sampleLib docExtPbadslot true []).1 = docExtRedacted
    ∧ (pbadslotEditor sampleLib (pbadslotEditor sampleLib docExtPbadslot true []).1 true []).1
        = docExtRedacted :=
  ⟨sampleLib_roundTrip, by decide,
    (pbadslotEditor_idempotent sampleLib sampleLib_roundTrip docExtPbadslot true [] []).trans
      (by decide)⟩

end Adf
